import Mathlib

/-!
Shallow embedding of the customer/address CRUD core of the repository:
the two tables created in server/database/database.js, the customer route
handlers of server/routes/customers.js and the address route handlers of
server/routes/addresses.js, together with the derived-flag maintenance
helper updateCustomerAddressFlags. Each SQL statement of the source is
translated to the corresponding pure list transformation, and each
callback-threaded handler to a sequential function on the whole store,
in the order the statements are issued on the single connection.
-/

namespace CustomerCrud

/-- The uniform response envelope of the routes: HTTP status, the success
field and the message field of the JSON body. -/
structure Response where
  status : Nat
  success : Bool
  message : String
deriving Repr, DecidableEq

/-- A row of the customers table (database.js). Timestamps are omitted:
no claim mentions them. NULL email is modelled as none. -/
structure Customer where
  id : Nat
  first_name : String
  last_name : String
  phone_number : String
  email : Option String
  has_multiple_addresses : Bool
  only_one_address : Bool
deriving Repr, DecidableEq

/-- A row of the addresses table (database.js). Timestamps omitted. -/
structure Address where
  id : Nat
  customer_id : Nat
  address_line1 : String
  address_line2 : String
  city : String
  state : String
  pin_code : String
  country : String
  is_primary : Bool
deriving Repr, DecidableEq

/-- The relational store: the two tables plus the AUTOINCREMENT counters
for the surrogate ids. -/
structure Store where
  customers : List Customer
  addresses : List Address
  nextCustomerId : Nat
  nextAddressId : Nat
deriving Repr, DecidableEq

/-- A freshly created database: both tables empty, AUTOINCREMENT ids
starting at 1 as in SQLite. -/
def emptyStore : Store := ⟨[], [], 1, 1⟩

/-- The request body of POST and PUT on the addresses routes. Optional
JSON fields are Option; customer_id is read by the handler but is not
among the fields checked by the validateAddress middleware. -/
structure AddressBody where
  customer_id : Option Nat
  address_line1 : String
  address_line2 : Option String
  city : String
  state : String
  pin_code : String
  country : Option String
  is_primary : Option Bool
deriving Repr, DecidableEq

/-- One entry of the addresses array of a customer create or update
request body (customers.js). These entries are inserted verbatim by the
handler and are not passed through the validateAddress middleware. -/
structure AddressPayload where
  address_line1 : String
  address_line2 : Option String
  city : String
  state : String
  pin_code : String
  country : Option String
  is_primary : Option Bool
deriving Repr, DecidableEq

/-- The request body of POST and PUT on the customers routes. -/
structure CustomerBody where
  first_name : String
  last_name : String
  phone_number : String
  email : Option String
  addresses : Option (List AddressPayload)
deriving Repr, DecidableEq

/-- JavaScript evaluation of the expression x OR d for an optional string
x: an absent or empty string is falsy and yields the default d. -/
def jsOrStr (x : Option String) (d : String) : String :=
  match x with
  | none => d
  | some s => if s.isEmpty then d else s

/-- JavaScript truthiness of the optional is_primary field: absent reads
as false. -/
def jsPrim (x : Option Bool) : Bool := x.getD false

/-- JavaScript truthiness of the optional email field in the guard
if (email): absent or empty reads false. -/
def jsSomeStr (x : Option String) : Bool :=
  match x with
  | none => false
  | some s => !s.isEmpty

/-- Whitespace trimming, the model of the trim sanitizer (library code,
not part of this repository), written structurally over the character
list of the string. -/
def strTrim (s : String) : String :=
  String.mk (((s.data.dropWhile Char.isWhitespace).reverse.dropWhile Char.isWhitespace).reverse)

/-- Bounded length check used by the isLength validators. -/
def lenBetween (lo hi : Nat) (s : String) : Bool :=
  decide (lo ≤ s.length) && decide (s.length ≤ hi)

/-- The matches check of the pin and phone validators: exactly n digits. -/
def matchesDigits (n : Nat) (s : String) : Bool :=
  decide (s.length = n) && s.data.all (fun c => c.isDigit)

/-- Abstraction of the isEmail check of the express-validator library
(library code, not part of this repository): one at-sign separating a
nonempty local part from a nonempty domain containing a dot. No claim
depends on the precise email grammar. -/
def isEmail (s : String) : Bool :=
  match s.data.splitOn ('@') with
  | [lp, dom] => !lp.isEmpty && !dom.isEmpty && dom.contains ('.')
  | _ => false

/-- The validateAddress middleware of addresses.js: trims then bounds
address_line1, address_line2, city, state and country, and matches
pin_code against six digits. is_primary is type-checked only, which the
typed model makes vacuous, and customer_id is not checked at all. -/
def validateAddress (b : AddressBody) : Bool :=
  lenBetween 5 200 (strTrim b.address_line1)
  && (match b.address_line2 with
      | none => true
      | some l2 => decide ((strTrim l2).length ≤ 200))
  && lenBetween 2 50 (strTrim b.city)
  && lenBetween 2 50 (strTrim b.state)
  && matchesDigits 6 b.pin_code
  && (match b.country with
      | none => true
      | some c => lenBetween 2 50 (strTrim c))

/-- The sanitizing effect of the trim calls of validateAddress on the
request body (express-validator trim mutates the body in place). -/
def sanitizeAddressBody (b : AddressBody) : AddressBody :=
  { b with
    address_line1 := strTrim b.address_line1
    address_line2 := b.address_line2.map strTrim
    city := strTrim b.city
    state := strTrim b.state
    country := b.country.map strTrim }

/-- The validateCustomer middleware of customers.js: trims then bounds
the two names, matches phone_number against ten digits, and checks the
optional email; the addresses field is only required to be an array,
which the typed model makes vacuous. -/
def validateCustomer (b : CustomerBody) : Bool :=
  lenBetween 2 50 (strTrim b.first_name)
  && lenBetween 2 50 (strTrim b.last_name)
  && matchesDigits 10 b.phone_number
  && (match b.email with
      | none => true
      | some e => isEmail e)

/-- The sanitizing effect of the trim calls of validateCustomer. -/
def sanitizeCustomerBody (b : CustomerBody) : CustomerBody :=
  { b with
    first_name := strTrim b.first_name
    last_name := strTrim b.last_name }

/-- SELECT COUNT of addresses WHERE customer_id matches, the subquery of
the flag recompute. -/
def addrCount (s : Store) (cid : Nat) : Nat :=
  s.addresses.countP (fun a => a.customer_id == cid)

/-- The row transformation of the flag recompute UPDATE on one customers
row: rows whose id matches get both derived flags set. -/
def setFlags (cid : Nat) (hm oo : Bool) (c : Customer) : Customer :=
  if c.id == cid then
    { c with has_multiple_addresses := hm, only_one_address := oo }
  else c

/-- The helper updateCustomerAddressFlags of addresses.js, identical to
the local updateAddressFlags of customers.js: UPDATE customers SET
has_multiple_addresses to COUNT greater than 1 and only_one_address to
COUNT equal 1 WHERE id matches, both subqueries reading the live
addresses table. -/
def updateCustomerAddressFlags (cid : Nat) (s : Store) : Store :=
  { s with customers :=
      s.customers.map (setFlags cid (decide (addrCount s cid > 1)) (decide (addrCount s cid = 1))) }

/-- Row transformation of UPDATE addresses SET is_primary = FALSE WHERE
customer_id matches. -/
def clearPrim (cid : Nat) (a : Address) : Address :=
  if a.customer_id == cid then { a with is_primary := false } else a

/-- UPDATE addresses SET is_primary = FALSE WHERE customer_id = ?, the
clear-others statement of the address create handler. -/
def clearPrimaries (cid : Nat) (s : Store) : Store :=
  { s with addresses := s.addresses.map (clearPrim cid) }

/-- Row transformation of UPDATE addresses SET is_primary = FALSE WHERE
customer_id = ? AND id != ?, used by the address update handler. -/
def clearOther (cid aid : Nat) (a : Address) : Address :=
  if a.customer_id == cid && !(a.id == aid) then { a with is_primary := false } else a

/-- The clear-others statement of the address update handler. -/
def clearOtherPrimaries (cid aid : Nat) (s : Store) : Store :=
  { s with addresses := s.addresses.map (clearOther cid aid) }

/-- INSERT INTO addresses with the defaults the handlers supply: empty
line2 and country India via the JavaScript OR expressions, is_primary
defaulted to false. The new row takes the next AUTOINCREMENT id. -/
def insertAddress (cid : Nat) (line1 : String) (line2 : Option String)
    (city st pin : String) (country : Option String) (isP : Option Bool)
    (s : Store) : Store :=
  { s with
    addresses := s.addresses ++
      [{ id := s.nextAddressId, customer_id := cid, address_line1 := line1,
         address_line2 := jsOrStr line2 (""), city := city, state := st,
         pin_code := pin, country := jsOrStr country ("India"),
         is_primary := jsPrim isP }]
    nextAddressId := s.nextAddressId + 1 }

/-- The state change of a successful address create for owner cid:
clear the other primaries when the new is_primary is truthy, insert the
row, then recompute the owner flags. -/
def createAddressState (cid : Nat) (b : AddressBody) (s : Store) : Store :=
  let s1 := if jsPrim b.is_primary then clearPrimaries cid s else s
  updateCustomerAddressFlags cid
    (insertAddress cid b.address_line1 b.address_line2 b.city b.state
      b.pin_code b.country b.is_primary s1)

/-- POST on the addresses route: validate, look the owner up (a missing
customer_id binds NULL and matches no row), then perform the create. -/
def createAddress (b0 : AddressBody) (s : Store) : Store × Response :=
  if validateAddress b0 then
    let b := sanitizeAddressBody b0
    match b.customer_id with
    | none => (s, ⟨404, false, "Customer not found"⟩)
    | some cid =>
      if s.customers.any (fun c => c.id == cid) then
        (createAddressState cid b s, ⟨201, true, "Address created successfully"⟩)
      else (s, ⟨404, false, "Customer not found"⟩)
  else (s, ⟨400, false, "Validation errors"⟩)

/-- The SET clause of the address update statement applied to one row:
every field except id and customer_id is overwritten from the body. -/
def applyAddressBody (b : AddressBody) (a : Address) : Address :=
  { a with
    address_line1 := b.address_line1
    address_line2 := jsOrStr b.address_line2 ("")
    city := b.city
    state := b.state
    pin_code := b.pin_code
    country := jsOrStr b.country ("India")
    is_primary := jsPrim b.is_primary }

/-- Row transformation of UPDATE addresses SET ... WHERE id = ?. -/
def applyIfId (aid : Nat) (b : AddressBody) (a : Address) : Address :=
  if a.id == aid then applyAddressBody b a else a

/-- The state change of a successful address update for owner cid:
clear the other primaries of that owner when the new is_primary is
truthy, overwrite the row fields, then recompute the owner flags. The
owning customer id is never written. -/
def updateAddressState (cid aid : Nat) (b : AddressBody) (s : Store) : Store :=
  let s1 := if jsPrim b.is_primary then clearOtherPrimaries cid aid s else s
  updateCustomerAddressFlags cid { s1 with addresses := s1.addresses.map (applyIfId aid b) }

/-- PUT on the addresses route: validate, resolve the owner from the
existing row, then perform the update for that owner. -/
def updateAddress (aid : Nat) (b0 : AddressBody) (s : Store) : Store × Response :=
  if validateAddress b0 then
    let b := sanitizeAddressBody b0
    match s.addresses.find? (fun a => a.id == aid) with
    | none => (s, ⟨404, false, "Address not found"⟩)
    | some a0 =>
      (updateAddressState a0.customer_id aid b s, ⟨200, true, "Address updated successfully"⟩)
  else (s, ⟨400, false, "Validation errors"⟩)

/-- The state change of a successful address delete: remove the row,
then recompute the flags of the former owner. -/
def deleteAddressState (cid aid : Nat) (s : Store) : Store :=
  updateCustomerAddressFlags cid
    { s with addresses := s.addresses.filter (fun a => !(a.id == aid)) }

/-- DELETE on the addresses route: resolve the former owner from the
existing row, delete the row, then recompute the owner flags. -/
def deleteAddress (aid : Nat) (s : Store) : Store × Response :=
  match s.addresses.find? (fun a => a.id == aid) with
  | none => (s, ⟨404, false, "Address not found"⟩)
  | some a0 =>
    (deleteAddressState a0.customer_id aid s, ⟨200, true, "Address deleted successfully"⟩)

/-- SELECT id FROM customers WHERE phone_number = ?, nonempty. -/
def phoneTaken (phone : String) (s : Store) : Bool :=
  s.customers.any (fun c => c.phone_number == phone)

/-- SELECT id FROM customers WHERE email = ?, nonempty; a NULL stored
email never matches. -/
def emailTaken (e : String) (s : Store) : Bool :=
  s.customers.any (fun c => c.email == some e)

/-- The forEach loop of the customer create and update handlers: insert
each supplied address payload for the given owner, in order, with the
same defaults as the address route insert. No validation and no
primary-exclusivity clearing happens here. -/
def insertPayloadAddresses (cid : Nat) (ps : List AddressPayload) (s : Store) : Store :=
  match ps with
  | [] => s
  | p :: rest =>
    insertPayloadAddresses cid rest
      (insertAddress cid p.address_line1 p.address_line2 p.city p.state
        p.pin_code p.country p.is_primary s)

/-- The customer row inserted by the customer create handler: the next
AUTOINCREMENT id, the body core fields, both derived flags at their
FALSE column default. -/
def newCustomer (cid : Nat) (b : CustomerBody) : Customer :=
  { id := cid, first_name := b.first_name, last_name := b.last_name,
    phone_number := b.phone_number, email := b.email,
    has_multiple_addresses := false, only_one_address := false }

/-- The address branch shared by the customer create and update
handlers: when a nonempty payload array is supplied its entries are
inserted for the owner, otherwise nothing happens. -/
def payloadStep (cid : Nat) (ob : Option (List AddressPayload)) (s : Store) : Store :=
  match ob with
  | some ps => if ps.isEmpty then s else insertPayloadAddresses cid ps s
  | none => s

/-- The state change of a successful customer create: insert the row,
insert the supplied address payloads when the array is nonempty, then
recompute the flags of the new customer. -/
def createCustomerState (b : CustomerBody) (s : Store) : Store :=
  let cid := s.nextCustomerId
  let s1 := { s with customers := s.customers ++ [newCustomer cid b],
                     nextCustomerId := cid + 1 }
  updateCustomerAddressFlags cid (payloadStep cid b.addresses s1)

/-- POST on the customers route: validate, reject a duplicate phone,
then (only when an email is supplied) reject a duplicate email, then
perform the create. -/
def createCustomer (b0 : CustomerBody) (s : Store) : Store × Response :=
  if validateCustomer b0 then
    let b := sanitizeCustomerBody b0
    if phoneTaken b.phone_number s then
      (s, ⟨400, false, "Phone number already exists"⟩)
    else if jsSomeStr b.email && emailTaken (b.email.getD ("")) s then
      (s, ⟨400, false, "Email already exists"⟩)
    else
      (createCustomerState b s, ⟨201, true, "Customer created successfully"⟩)
  else (s, ⟨400, false, "Validation errors"⟩)

/-- Row transformation of the customer core-field UPDATE: rows whose id
matches get the four core fields overwritten, the derived flags kept. -/
def setCore (cid : Nat) (b : CustomerBody) (c : Customer) : Customer :=
  if c.id == cid then
    { c with first_name := b.first_name, last_name := b.last_name,
             phone_number := b.phone_number, email := b.email }
  else c

/-- The state change of a successful customer update: overwrite the core
fields, delete every existing address of the customer, insert the
supplied payload list when nonempty, then recompute the flags. Both
address branches of the source first issue DELETE FROM addresses WHERE
customer_id = ?. -/
def updateCustomerState (cid : Nat) (b : CustomerBody) (s : Store) : Store :=
  let s1 := { s with customers := s.customers.map (setCore cid b) }
  let s2 := { s1 with addresses := s1.addresses.filter (fun a => !(a.customer_id == cid)) }
  updateCustomerAddressFlags cid (payloadStep cid b.addresses s2)

/-- PUT on the customers route: validate, require the customer to exist,
reject a duplicate phone or (when supplied) email belonging to another
id, then perform the update. -/
def updateCustomer (cid : Nat) (b0 : CustomerBody) (s : Store) : Store × Response :=
  if validateCustomer b0 then
    let b := sanitizeCustomerBody b0
    if s.customers.any (fun c => c.id == cid) then
      if s.customers.any (fun c => c.phone_number == b.phone_number && !(c.id == cid)) then
        (s, ⟨400, false, "Phone number already exists"⟩)
      else if jsSomeStr b.email &&
          s.customers.any (fun c => c.email == some (b.email.getD ("")) && !(c.id == cid)) then
        (s, ⟨400, false, "Email already exists"⟩)
      else
        (updateCustomerState cid b s, ⟨200, true, "Customer updated successfully"⟩)
    else (s, ⟨404, false, "Customer not found"⟩)
  else (s, ⟨400, false, "Validation errors"⟩)

/-- The state change of a customer delete: the customers row goes, and
the addresses of the customer disappear with it through the ON DELETE
CASCADE foreign key of the addresses table DDL (database.js). -/
def deleteCustomerState (cid : Nat) (s : Store) : Store :=
  { s with
    customers := s.customers.filter (fun c => !(c.id == cid))
    addresses := s.addresses.filter (fun a => !(a.customer_id == cid)) }

/-- DELETE on the customers route: require the customer to exist, then
perform the cascade delete. -/
def deleteCustomer (cid : Nat) (s : Store) : Store × Response :=
  if s.customers.any (fun c => c.id == cid) then
    (deleteCustomerState cid s, ⟨200, true, "Customer deleted successfully"⟩)
  else (s, ⟨404, false, "Customer not found"⟩)

/-- GET on the customers route by id: 404 when no row matches. -/
def getCustomer (cid : Nat) (s : Store) : Response :=
  match s.customers.find? (fun c => c.id == cid) with
  | none => ⟨404, false, "Customer not found"⟩
  | some _ => ⟨200, true, ""⟩

/-- One request against the mutating endpoints of the two routers. -/
inductive Op where
  | createCustomer (b : CustomerBody)
  | updateCustomer (cid : Nat) (b : CustomerBody)
  | deleteCustomer (cid : Nat)
  | createAddress (b : AddressBody)
  | updateAddress (aid : Nat) (b : AddressBody)
  | deleteAddress (aid : Nat)
deriving Repr, DecidableEq

/-- The store reached by one request, ignoring the response. -/
def applyOp (s : Store) (op : Op) : Store :=
  match op with
  | .createCustomer b => (createCustomer b s).1
  | .updateCustomer cid b => (updateCustomer cid b s).1
  | .deleteCustomer cid => (deleteCustomer cid s).1
  | .createAddress b => (createAddress b s).1
  | .updateAddress aid b => (updateAddress aid b s).1
  | .deleteAddress aid => (deleteAddress aid s).1

/-- The store reached from a fresh database by a sequence of requests. -/
def run (ops : List Op) : Store := ops.foldl applyOp emptyStore

/-- Number of addresses of the given customer flagged primary. -/
def primaryCount (s : Store) (cid : Nat) : Nat :=
  s.addresses.countP (fun a => a.customer_id == cid && a.is_primary)

/-- The primary-exclusivity invariant of the spec: every customer has at
most one address flagged primary. -/
def primInv (s : Store) : Prop := ∀ cid, primaryCount s cid ≤ 1

/-- Number of entries of a payload list whose is_primary is truthy. -/
def payloadPrimaryCount (ps : List AddressPayload) : Nat :=
  ps.countP (fun p => jsPrim p.is_primary)

/-- A request whose address payload list flags at most one entry as
primary (always true for requests without a payload list). -/
def goodOp (op : Op) : Bool :=
  match op with
  | .createCustomer b | .updateCustomer _ b =>
    match b.addresses with
    | none => true
    | some ps => decide (payloadPrimaryCount ps ≤ 1)
  | _ => true

/-! Basic facts about the row transformations. -/

@[simp]
theorem setFlags_id (cid : Nat) (hm oo : Bool) (c : Customer) : (setFlags cid hm oo c).id = c.id := by
  unfold setFlags; split <;> rfl

@[simp]
theorem setFlags_first (cid : Nat) (hm oo : Bool) (c : Customer) :
    (setFlags cid hm oo c).first_name = c.first_name := by
  unfold setFlags; split <;> rfl

@[simp]
theorem setFlags_last (cid : Nat) (hm oo : Bool) (c : Customer) :
    (setFlags cid hm oo c).last_name = c.last_name := by
  unfold setFlags; split <;> rfl

@[simp]
theorem setFlags_phone (cid : Nat) (hm oo : Bool) (c : Customer) :
    (setFlags cid hm oo c).phone_number = c.phone_number := by
  unfold setFlags; split <;> rfl

@[simp]
theorem setFlags_email (cid : Nat) (hm oo : Bool) (c : Customer) :
    (setFlags cid hm oo c).email = c.email := by
  unfold setFlags; split <;> rfl

theorem setFlags_of_ne (cid : Nat) (hm oo : Bool) (c : Customer) (h : c.id ≠ cid) :
    setFlags cid hm oo c = c := by
  unfold setFlags; simp [h]

@[simp]
theorem clearPrim_id (cid : Nat) (a : Address) : (clearPrim cid a).id = a.id := by
  unfold clearPrim; split <;> rfl

@[simp]
theorem clearPrim_customer_id (cid : Nat) (a : Address) :
    (clearPrim cid a).customer_id = a.customer_id := by
  unfold clearPrim; split <;> rfl

@[simp]
theorem clearOther_id (cid aid : Nat) (a : Address) : (clearOther cid aid a).id = a.id := by
  unfold clearOther; split <;> rfl

@[simp]
theorem clearOther_customer_id (cid aid : Nat) (a : Address) :
    (clearOther cid aid a).customer_id = a.customer_id := by
  unfold clearOther; split <;> rfl

@[simp]
theorem applyIfId_id (aid : Nat) (b : AddressBody) (a : Address) :
    (applyIfId aid b a).id = a.id := by
  unfold applyIfId applyAddressBody; split <;> rfl

@[simp]
theorem applyIfId_customer_id (aid : Nat) (b : AddressBody) (a : Address) :
    (applyIfId aid b a).customer_id = a.customer_id := by
  unfold applyIfId applyAddressBody; split <;> rfl

@[simp]
theorem setCore_id (cid : Nat) (b : CustomerBody) (c : Customer) :
    (setCore cid b c).id = c.id := by
  unfold setCore; split <;> rfl

@[simp]
theorem setCore_hm (cid : Nat) (b : CustomerBody) (c : Customer) :
    (setCore cid b c).has_multiple_addresses = c.has_multiple_addresses := by
  unfold setCore; split <;> rfl

@[simp]
theorem setCore_oo (cid : Nat) (b : CustomerBody) (c : Customer) :
    (setCore cid b c).only_one_address = c.only_one_address := by
  unfold setCore; split <;> rfl

theorem setCore_of_ne (cid : Nat) (b : CustomerBody) (c : Customer) (h : c.id ≠ cid) :
    setCore cid b c = c := by
  unfold setCore; simp [h]

@[simp]
theorem sanitizeAddressBody_customer_id (b : AddressBody) :
    (sanitizeAddressBody b).customer_id = b.customer_id := rfl

@[simp]
theorem sanitizeAddressBody_is_primary (b : AddressBody) :
    (sanitizeAddressBody b).is_primary = b.is_primary := rfl

@[simp]
theorem sanitizeCustomerBody_addresses (b : CustomerBody) :
    (sanitizeCustomerBody b).addresses = b.addresses := rfl

@[simp]
theorem sanitizeCustomerBody_phone (b : CustomerBody) :
    (sanitizeCustomerBody b).phone_number = b.phone_number := rfl

@[simp]
theorem sanitizeCustomerBody_email (b : CustomerBody) :
    (sanitizeCustomerBody b).email = b.email := rfl

/-! Projections of the store transformations. -/

@[simp]
theorem updateCustomerAddressFlags_addresses (cid : Nat) (s : Store) :
    (updateCustomerAddressFlags cid s).addresses = s.addresses := rfl

@[simp]
theorem updateCustomerAddressFlags_nextC (cid : Nat) (s : Store) :
    (updateCustomerAddressFlags cid s).nextCustomerId = s.nextCustomerId := rfl

@[simp]
theorem updateCustomerAddressFlags_nextA (cid : Nat) (s : Store) :
    (updateCustomerAddressFlags cid s).nextAddressId = s.nextAddressId := rfl

@[simp]
theorem clearPrimaries_customers (cid : Nat) (s : Store) :
    (clearPrimaries cid s).customers = s.customers := rfl

@[simp]
theorem clearPrimaries_nextC (cid : Nat) (s : Store) :
    (clearPrimaries cid s).nextCustomerId = s.nextCustomerId := rfl

@[simp]
theorem clearPrimaries_nextA (cid : Nat) (s : Store) :
    (clearPrimaries cid s).nextAddressId = s.nextAddressId := rfl

@[simp]
theorem clearOtherPrimaries_customers (cid aid : Nat) (s : Store) :
    (clearOtherPrimaries cid aid s).customers = s.customers := rfl

@[simp]
theorem clearOtherPrimaries_nextC (cid aid : Nat) (s : Store) :
    (clearOtherPrimaries cid aid s).nextCustomerId = s.nextCustomerId := rfl

@[simp]
theorem clearOtherPrimaries_nextA (cid aid : Nat) (s : Store) :
    (clearOtherPrimaries cid aid s).nextAddressId = s.nextAddressId := rfl

@[simp]
theorem insertAddress_customers (cid : Nat) (l1 : String) (l2 : Option String)
    (ci st pi : String) (co : Option String) (ip : Option Bool) (s : Store) :
    (insertAddress cid l1 l2 ci st pi co ip s).customers = s.customers := rfl

@[simp]
theorem insertAddress_nextC (cid : Nat) (l1 : String) (l2 : Option String)
    (ci st pi : String) (co : Option String) (ip : Option Bool) (s : Store) :
    (insertAddress cid l1 l2 ci st pi co ip s).nextCustomerId = s.nextCustomerId := rfl

/-! Generic counting helpers. -/

theorem countP_map_congr {α : Type} {l : List α} {f : α → α} {p : α → Bool}
    (h : ∀ a ∈ l, p (f a) = p a) : (l.map f).countP p = l.countP p := by
  induction l with
  | nil => rfl
  | cons x t ih =>
    simp only [List.map_cons, List.countP_cons, h x (List.mem_cons_self x t)]
    rw [ih (fun a ha => h a (List.mem_cons_of_mem x ha))]

theorem countP_map_false {α : Type} {l : List α} {f : α → α} {p : α → Bool}
    (h : ∀ a ∈ l, p (f a) = false) : (l.map f).countP p = 0 := by
  induction l with
  | nil => rfl
  | cons x t ih =>
    simp only [List.map_cons, List.countP_cons, h x (List.mem_cons_self x t)]
    simp [ih (fun a ha => h a (List.mem_cons_of_mem x ha))]

theorem countP_map_le {α : Type} {l : List α} {f : α → α} {p q : α → Bool}
    (h : ∀ a ∈ l, p (f a) = true → q a = true) : (l.map f).countP p ≤ l.countP q := by
  induction l with
  | nil => exact Nat.le_refl 0
  | cons x t ih =>
    simp only [List.map_cons, List.countP_cons]
    have hx := h x (List.mem_cons_self x t)
    have ht := ih (fun a ha => h a (List.mem_cons_of_mem x ha))
    by_cases hp : p (f x) = true
    · simp only [hp, if_pos rfl, hx hp, if_pos rfl]; omega
    · rw [Bool.not_eq_true] at hp
      simp only [hp, Bool.false_eq_true, if_false]
      split <;> omega

theorem countP_eq_zero_of {α : Type} {l : List α} {p : α → Bool}
    (h : ∀ a ∈ l, p a = false) : l.countP p = 0 := by
  rw [List.countP_eq_zero]
  intro a ha
  simp [h a ha]

/-- In a list whose entries carry pairwise distinct ids, two members with
the same id are the same entry. -/
theorem mem_id_unique {l : List Address}
    (hp : l.Pairwise (fun x y => x.id ≠ y.id)) {a b : Address}
    (ha : a ∈ l) (hb : b ∈ l) (h : a.id = b.id) : a = b := by
  induction l with
  | nil => cases ha
  | cons x t ih =>
    rw [List.pairwise_cons] at hp
    rcases List.mem_cons.1 ha with rfl | ha' <;> rcases List.mem_cons.1 hb with rfl | hb'
    · rfl
    · exact absurd h (hp.1 b hb')
    · exact absurd h.symm (hp.1 a ha')
    · exact ih hp.2 ha' hb'

/-- In a list with pairwise distinct ids, at most one entry matches a
given id. -/
theorem countP_id_le_one {l : List Address}
    (hp : l.Pairwise (fun x y => x.id ≠ y.id)) (aid : Nat) :
    l.countP (fun a => a.id == aid) ≤ 1 := by
  induction l with
  | nil => exact Nat.zero_le 1
  | cons x t ih =>
    rw [List.pairwise_cons] at hp
    rw [List.countP_cons]
    by_cases hx : x.id = aid
    · have hz : t.countP (fun a => a.id == aid) = 0 := by
        apply countP_eq_zero_of
        intro a ha
        have := hp.1 a ha
        rw [hx] at this
        simp [Ne.symm this]
      simp [hz, hx]
    · have := ih hp.2
      simp only [beq_iff_eq, hx, if_false]
      omega

/-- The rows produced by inserting a payload list for owner cid with
consecutive AUTOINCREMENT ids starting at n. -/
def materialize (cid : Nat) : Nat → List AddressPayload → List Address
  | _, [] => []
  | n, p :: rest =>
    { id := n, customer_id := cid, address_line1 := p.address_line1,
      address_line2 := jsOrStr p.address_line2 (""), city := p.city,
      state := p.state, pin_code := p.pin_code,
      country := jsOrStr p.country ("India"),
      is_primary := jsPrim p.is_primary } :: materialize cid (n + 1) rest

theorem mem_materialize {cid n : Nat} {ps : List AddressPayload} {a : Address}
    (h : a ∈ materialize cid n ps) :
    a.customer_id = cid ∧ n ≤ a.id ∧ a.id < n + ps.length := by
  induction ps generalizing n with
  | nil => cases h
  | cons p rest ih =>
    rcases List.mem_cons.1 h with rfl | h'
    · refine ⟨rfl, Nat.le_refl n, ?_⟩
      simp only [List.length_cons]
      omega
    · rcases ih h' with ⟨h1, h2, h3⟩
      refine ⟨h1, by omega, ?_⟩
      simp only [List.length_cons]
      omega

theorem materialize_pairwise (cid n : Nat) (ps : List AddressPayload) :
    (materialize cid n ps).Pairwise (fun x y => x.id ≠ y.id) := by
  induction ps generalizing n with
  | nil => exact List.Pairwise.nil
  | cons p rest ih =>
    rw [materialize, List.pairwise_cons]
    refine ⟨fun a ha => ?_, ih (n + 1)⟩
    have := (mem_materialize ha).2.1
    simp only
    omega

theorem countP_materialize_prim (cid n : Nat) (ps : List AddressPayload) :
    (materialize cid n ps).countP (fun a => a.customer_id == cid && a.is_primary) =
      payloadPrimaryCount ps := by
  induction ps generalizing n with
  | nil => rfl
  | cons p rest ih =>
    rw [materialize, List.countP_cons]
    unfold payloadPrimaryCount
    rw [List.countP_cons]
    unfold payloadPrimaryCount at ih
    rw [ih (n + 1)]
    simp

theorem countP_materialize_zero (cid n : Nat) (ps : List AddressPayload)
    (p : Address → Bool) (hp : ∀ a, a.customer_id = cid → p a = false) :
    (materialize cid n ps).countP p = 0 := by
  apply countP_eq_zero_of
  intro a ha
  exact hp a (mem_materialize ha).1

/-- The payload-insert loop appends exactly the materialized rows and
advances the address counter by the list length. -/
theorem insertPayloadAddresses_eq (cid : Nat) (ps : List AddressPayload) (s : Store) :
    insertPayloadAddresses cid ps s =
      { s with addresses := s.addresses ++ materialize cid s.nextAddressId ps,
               nextAddressId := s.nextAddressId + ps.length } := by
  induction ps generalizing s with
  | nil => simp [insertPayloadAddresses, materialize]
  | cons p rest ih =>
    rw [insertPayloadAddresses, ih]
    unfold insertAddress
    simp [materialize, List.append_assoc]
    omega

/-! Well-formed stores: every reachable store keeps all surrogate ids
below the counters, every address owner id below the customer counter,
and the address ids pairwise distinct. -/

def WfStore (s : Store) : Prop :=
  (∀ c ∈ s.customers, c.id < s.nextCustomerId) ∧
  (∀ a ∈ s.addresses, a.customer_id < s.nextCustomerId) ∧
  (∀ a ∈ s.addresses, a.id < s.nextAddressId) ∧
  s.addresses.Pairwise (fun x y => x.id ≠ y.id)

theorem wfStore_empty : WfStore emptyStore := by
  refine ⟨?_, ?_, ?_, ?_⟩ <;> simp [emptyStore]

theorem wfStore_updateFlags {s : Store} (h : WfStore s) (cid : Nat) :
    WfStore (updateCustomerAddressFlags cid s) := by
  obtain ⟨h1, h2, h3, h4⟩ := h
  refine ⟨?_, h2, h3, h4⟩
  intro c hc
  rcases List.mem_map.1 hc with ⟨c0, hc0, rfl⟩
  simpa using h1 c0 hc0

/-! Branch analysis of the route functions: each request either leaves
the store untouched (validation failure, missing target, conflict) or
performs the corresponding state change. -/

theorem createAddress_fst (b0 : AddressBody) (s : Store) :
    (createAddress b0 s).1 = s ∨
      ∃ cid, b0.customer_id = some cid ∧
        s.customers.any (fun c => c.id == cid) = true ∧
        (createAddress b0 s).1 = createAddressState cid (sanitizeAddressBody b0) s := by
  simp only [createAddress]
  split
  · split
    · exact Or.inl rfl
    · rename_i cid heq
      split
      · rename_i hany
        exact Or.inr ⟨cid, by simpa using heq, hany, rfl⟩
      · exact Or.inl rfl
  · exact Or.inl rfl

theorem updateAddress_fst (aid : Nat) (b0 : AddressBody) (s : Store) :
    (updateAddress aid b0 s).1 = s ∨
      ∃ a0, s.addresses.find? (fun a => a.id == aid) = some a0 ∧
        (updateAddress aid b0 s).1 = updateAddressState a0.customer_id aid (sanitizeAddressBody b0) s := by
  simp only [updateAddress]
  split
  · split
    · exact Or.inl rfl
    · rename_i a0 heq
      exact Or.inr ⟨a0, heq, rfl⟩
  · exact Or.inl rfl

theorem deleteAddress_fst (aid : Nat) (s : Store) :
    (deleteAddress aid s).1 = s ∨
      ∃ a0, s.addresses.find? (fun a => a.id == aid) = some a0 ∧
        (deleteAddress aid s).1 = deleteAddressState a0.customer_id aid s := by
  simp only [deleteAddress]
  split
  · exact Or.inl rfl
  · rename_i a0 heq
    exact Or.inr ⟨a0, heq, rfl⟩

theorem createCustomer_fst (b0 : CustomerBody) (s : Store) :
    (createCustomer b0 s).1 = s ∨
      (createCustomer b0 s).1 = createCustomerState (sanitizeCustomerBody b0) s := by
  simp only [createCustomer]
  split
  · split
    · exact Or.inl rfl
    · split
      · exact Or.inl rfl
      · exact Or.inr rfl
  · exact Or.inl rfl

theorem updateCustomer_fst (cid : Nat) (b0 : CustomerBody) (s : Store) :
    (updateCustomer cid b0 s).1 = s ∨
      (s.customers.any (fun c => c.id == cid) = true ∧
        (updateCustomer cid b0 s).1 = updateCustomerState cid (sanitizeCustomerBody b0) s) := by
  simp only [updateCustomer]
  split
  · split
    · rename_i hany
      split
      · exact Or.inl rfl
      · split
        · exact Or.inl rfl
        · exact Or.inr ⟨hany, rfl⟩
    · exact Or.inl rfl
  · exact Or.inl rfl

theorem deleteCustomer_fst (cid : Nat) (s : Store) :
    (deleteCustomer cid s).1 = s ∨
      (deleteCustomer cid s).1 = deleteCustomerState cid s := by
  simp only [deleteCustomer]
  split
  · exact Or.inr rfl
  · exact Or.inl rfl

/-! Preservation of well-formedness by every operation. -/

theorem wf_map_addresses {s : Store} (h : WfStore s) {f : Address → Address}
    (hid : ∀ a, (f a).id = a.id) (hcid : ∀ a, (f a).customer_id = a.customer_id) :
    WfStore { s with addresses := s.addresses.map f } := by
  obtain ⟨h1, h2, h3, h4⟩ := h
  refine ⟨h1, ?_, ?_, ?_⟩
  · intro a ha
    rcases List.mem_map.1 ha with ⟨a0, ha0, rfl⟩
    rw [hcid]
    exact h2 a0 ha0
  · intro a ha
    rcases List.mem_map.1 ha with ⟨a0, ha0, rfl⟩
    rw [hid]
    exact h3 a0 ha0
  · rw [List.pairwise_map]
    exact h4.imp (fun hne => by rw [hid, hid]; exact hne)

theorem wf_filter_addresses {s : Store} (h : WfStore s) (p : Address → Bool) :
    WfStore { s with addresses := s.addresses.filter p } := by
  obtain ⟨h1, h2, h3, h4⟩ := h
  refine ⟨h1, ?_, ?_, ?_⟩
  · intro a ha
    exact h2 a (List.mem_of_mem_filter ha)
  · intro a ha
    exact h3 a (List.mem_of_mem_filter ha)
  · exact h4.sublist (List.filter_sublist s.addresses)

theorem wf_insertAddress {s : Store} (h : WfStore s) {cid : Nat}
    (hcid : cid < s.nextCustomerId) (l1 : String) (l2 : Option String)
    (ci st pi : String) (co : Option String) (ip : Option Bool) :
    WfStore (insertAddress cid l1 l2 ci st pi co ip s) := by
  obtain ⟨h1, h2, h3, h4⟩ := h
  unfold insertAddress
  refine ⟨h1, ?_, ?_, ?_⟩
  · intro a ha
    rcases List.mem_append.1 ha with ha | ha
    · exact h2 a ha
    · rw [List.mem_singleton.1 ha]
      exact hcid
  · intro a ha
    rcases List.mem_append.1 ha with ha | ha
    · have := h3 a ha
      simp only
      omega
    · rw [List.mem_singleton.1 ha]
      simp only
      omega
  · rw [List.pairwise_append]
    refine ⟨h4, List.pairwise_singleton _ _, ?_⟩
    intro a ha b hb
    rw [List.mem_singleton.1 hb]
    have := h3 a ha
    simp only
    omega

theorem wf_insertPayload {s : Store} (h : WfStore s) {cid : Nat}
    (hcid : cid < s.nextCustomerId) (ps : List AddressPayload) :
    WfStore (insertPayloadAddresses cid ps s) := by
  rw [insertPayloadAddresses_eq]
  obtain ⟨h1, h2, h3, h4⟩ := h
  refine ⟨h1, ?_, ?_, ?_⟩
  · intro a ha
    rcases List.mem_append.1 ha with ha | ha
    · exact h2 a ha
    · rw [(mem_materialize ha).1]
      exact hcid
  · intro a ha
    rcases List.mem_append.1 ha with ha | ha
    · have := h3 a ha
      simp only
      omega
    · have := (mem_materialize ha).2.2
      simp only
      omega
  · rw [List.pairwise_append]
    refine ⟨h4, materialize_pairwise cid s.nextAddressId ps, ?_⟩
    intro a ha b hb
    have h5 := h3 a ha
    have h6 := (mem_materialize hb).2.1
    omega

theorem wf_createAddressState {s : Store} (h : WfStore s) {cid : Nat}
    (hcid : cid < s.nextCustomerId) (b : AddressBody) :
    WfStore (createAddressState cid b s) := by
  unfold createAddressState
  apply wfStore_updateFlags
  by_cases hp : jsPrim b.is_primary = true
  · rw [if_pos hp]
    exact wf_insertAddress (wf_map_addresses h (clearPrim_id cid) (clearPrim_customer_id cid))
      hcid _ _ _ _ _ _ _
  · rw [Bool.not_eq_true] at hp
    rw [hp]
    exact wf_insertAddress h hcid _ _ _ _ _ _ _

theorem wf_updateAddressState {s : Store} (h : WfStore s) (cid aid : Nat) (b : AddressBody) :
    WfStore (updateAddressState cid aid b s) := by
  unfold updateAddressState
  apply wfStore_updateFlags
  by_cases hp : jsPrim b.is_primary = true
  · rw [if_pos hp]
    exact wf_map_addresses
      (wf_map_addresses h (clearOther_id cid aid) (clearOther_customer_id cid aid))
      (applyIfId_id aid b) (applyIfId_customer_id aid b)
  · rw [Bool.not_eq_true] at hp
    rw [hp]
    exact wf_map_addresses h (applyIfId_id aid b) (applyIfId_customer_id aid b)

theorem wf_deleteAddressState {s : Store} (h : WfStore s) (cid aid : Nat) :
    WfStore (deleteAddressState cid aid s) := by
  unfold deleteAddressState
  exact wfStore_updateFlags (wf_filter_addresses h _) cid

theorem wf_payloadStep {s : Store} (h : WfStore s) {cid : Nat}
    (hcid : cid < s.nextCustomerId) (ob : Option (List AddressPayload)) :
    WfStore (payloadStep cid ob s) := by
  unfold payloadStep
  cases ob with
  | none => exact h
  | some ps =>
    by_cases hps : ps.isEmpty = true
    · simpa [hps] using h
    · rw [Bool.not_eq_true] at hps
      simpa [hps] using wf_insertPayload h hcid ps

theorem wf_createCustomerState {s : Store} (h : WfStore s) (b : CustomerBody) :
    WfStore (createCustomerState b s) := by
  unfold createCustomerState
  apply wfStore_updateFlags
  obtain ⟨h1, h2, h3, h4⟩ := h
  have hs1 : WfStore { s with customers := s.customers ++ [newCustomer s.nextCustomerId b], nextCustomerId := s.nextCustomerId + 1 } := by
    refine ⟨?_, ?_, h3, h4⟩
    · intro c hc
      rcases List.mem_append.1 hc with hc | hc
      · have := h1 c hc
        simp only
        omega
      · rw [List.mem_singleton.1 hc]
        simp only [newCustomer]
        omega
    · intro a ha
      have := h2 a ha
      simp only
      omega
  exact wf_payloadStep hs1 (by simp only; omega) b.addresses

theorem wf_updateCustomerState {s : Store} (h : WfStore s) {cid : Nat}
    (hcid : cid < s.nextCustomerId) (b : CustomerBody) :
    WfStore (updateCustomerState cid b s) := by
  unfold updateCustomerState
  apply wfStore_updateFlags
  have hs1 : WfStore { s with customers := s.customers.map (setCore cid b) } := by
    obtain ⟨h1, h2, h3, h4⟩ := h
    refine ⟨?_, h2, h3, h4⟩
    intro c hc
    rcases List.mem_map.1 hc with ⟨c0, hc0, rfl⟩
    rw [setCore_id]
    exact h1 c0 hc0
  exact wf_payloadStep (wf_filter_addresses hs1 (fun a => !(a.customer_id == cid))) hcid b.addresses

theorem wf_deleteCustomerState {s : Store} (h : WfStore s) (cid : Nat) :
    WfStore (deleteCustomerState cid s) := by
  obtain ⟨h1, h2, h3, h4⟩ := h
  unfold deleteCustomerState
  refine ⟨?_, ?_, ?_, ?_⟩
  · intro c hc
    exact h1 c (List.mem_of_mem_filter hc)
  · intro a ha
    exact h2 a (List.mem_of_mem_filter ha)
  · intro a ha
    exact h3 a (List.mem_of_mem_filter ha)
  · exact h4.sublist (List.filter_sublist s.addresses)

/-- The id bound extracted from a successful existence check. -/
theorem cid_lt_of_any {s : Store} (h : WfStore s) {cid : Nat}
    (hany : s.customers.any (fun c => c.id == cid) = true) : cid < s.nextCustomerId := by
  rcases List.any_eq_true.1 hany with ⟨c, hc, hcid⟩
  have hc' : c.id = cid := by simpa using hcid
  rw [← hc']
  exact h.1 c hc

theorem wfStore_applyOp {s : Store} (h : WfStore s) (op : Op) : WfStore (applyOp s op) := by
  cases op with
  | createCustomer b =>
    rcases createCustomer_fst b s with heq | heq <;> rw [applyOp, heq]
    · exact h
    · exact wf_createCustomerState h _
  | updateCustomer cid b =>
    rcases updateCustomer_fst cid b s with heq | ⟨hany, heq⟩ <;> rw [applyOp, heq]
    · exact h
    · exact wf_updateCustomerState h (cid_lt_of_any h hany) _
  | deleteCustomer cid =>
    rcases deleteCustomer_fst cid s with heq | heq <;> rw [applyOp, heq]
    · exact h
    · exact wf_deleteCustomerState h cid
  | createAddress b =>
    rcases createAddress_fst b s with heq | ⟨cid, _, hany, heq⟩ <;> rw [applyOp, heq]
    · exact h
    · exact wf_createAddressState h (cid_lt_of_any h hany) _
  | updateAddress aid b =>
    rcases updateAddress_fst aid b s with heq | ⟨a0, hfind, heq⟩ <;> rw [applyOp, heq]
    · exact h
    · exact wf_updateAddressState h a0.customer_id aid _
  | deleteAddress aid =>
    rcases deleteAddress_fst aid s with heq | ⟨a0, hfind, heq⟩ <;> rw [applyOp, heq]
    · exact h
    · exact wf_deleteAddressState h _ aid

/-! Address counts under the store transformations. -/

@[simp]
theorem addrCount_updateFlags (cid c2 : Nat) (s : Store) :
    addrCount (updateCustomerAddressFlags cid s) c2 = addrCount s c2 := rfl

theorem addrCount_map_addresses {f : Address → Address}
    (hcid : ∀ a, (f a).customer_id = a.customer_id) (s : Store) (c2 : Nat) :
    addrCount { s with addresses := s.addresses.map f } c2 = addrCount s c2 := by
  unfold addrCount
  exact countP_map_congr (fun a _ => by rw [hcid])

theorem addrCount_insertAddress_ne {cid c2 : Nat} (h : c2 ≠ cid) (l1 : String)
    (l2 : Option String) (ci st pi : String) (co : Option String) (ip : Option Bool)
    (s : Store) :
    addrCount (insertAddress cid l1 l2 ci st pi co ip s) c2 = addrCount s c2 := by
  unfold insertAddress addrCount
  rw [List.countP_append]
  simp [Ne.symm h]

theorem addrCount_insertPayload_ne {cid c2 : Nat} (h : c2 ≠ cid)
    (ps : List AddressPayload) (s : Store) :
    addrCount (insertPayloadAddresses cid ps s) c2 = addrCount s c2 := by
  rw [insertPayloadAddresses_eq]
  unfold addrCount
  rw [List.countP_append]
  have : (materialize cid s.nextAddressId ps).countP (fun a => a.customer_id == c2) = 0 := by
    apply countP_eq_zero_of
    intro a ha
    rw [(mem_materialize ha).1]
    simp [Ne.symm h]
  simp [this]

@[simp]
theorem payloadStep_customers (cid : Nat) (ob : Option (List AddressPayload)) (s : Store) :
    (payloadStep cid ob s).customers = s.customers := by
  cases ob with
  | none => rfl
  | some ps =>
    by_cases hps : ps.isEmpty = true
    · simp [payloadStep, hps]
    · simp [payloadStep, hps, insertPayloadAddresses_eq]

theorem addrCount_payloadStep_ne {cid c2 : Nat} (h : c2 ≠ cid)
    (ob : Option (List AddressPayload)) (s : Store) :
    addrCount (payloadStep cid ob s) c2 = addrCount s c2 := by
  cases ob with
  | none => rfl
  | some ps =>
    by_cases hps : ps.isEmpty = true
    · simp [payloadStep, hps]
    · simp only [payloadStep, hps, Bool.false_eq_true, if_false]
      exact addrCount_insertPayload_ne h ps s

theorem addrCount_filter_ne {cid c2 : Nat} (h : c2 ≠ cid) (s : Store) :
    addrCount { s with addresses := s.addresses.filter (fun a => !(a.customer_id == cid)) } c2 =
      addrCount s c2 := by
  unfold addrCount
  rw [List.countP_filter]
  apply List.countP_congr
  intro a _
  constructor
  · intro ha
    simp only [Bool.and_eq_true] at ha
    exact ha.1
  · intro ha
    simp only [Bool.and_eq_true]
    refine ⟨ha, ?_⟩
    simp only [beq_iff_eq] at ha ⊢
    simp [ha, h]

/-! Correctness of the two derived flags: in every reachable store each
customers row carries exactly the flags the recompute would produce from
the live address count. -/

def flagsCorrect (s : Store) : Prop :=
  ∀ c ∈ s.customers,
    c.has_multiple_addresses = decide (addrCount s c.id > 1) ∧
    c.only_one_address = decide (addrCount s c.id = 1)

theorem flagsCorrect_empty : flagsCorrect emptyStore := by
  intro c hc
  cases hc

/-- The flag recompute makes every row of the target id correct and
leaves the other rows alone, so correctness of the whole table follows
from correctness of the non-target rows. -/
theorem flagsCorrect_updateFlags {cid : Nat} {s2 : Store}
    (h : ∀ c ∈ s2.customers, c.id ≠ cid →
      c.has_multiple_addresses = decide (addrCount s2 c.id > 1) ∧
      c.only_one_address = decide (addrCount s2 c.id = 1)) :
    flagsCorrect (updateCustomerAddressFlags cid s2) := by
  intro c hc
  rcases List.mem_map.1 hc with ⟨c0, hc0, rfl⟩
  rw [setFlags_id, addrCount_updateFlags]
  by_cases hcid : c0.id = cid
  · unfold setFlags
    rw [if_pos (by simpa using hcid), hcid]
    exact ⟨rfl, rfl⟩
  · rw [setFlags_of_ne cid _ _ c0 hcid]
    exact h c0 hc0 hcid

theorem flagsCorrect_createAddressState {s : Store} (hfc : flagsCorrect s)
    (cid : Nat) (b : AddressBody) : flagsCorrect (createAddressState cid b s) := by
  unfold createAddressState
  apply flagsCorrect_updateFlags
  intro c hc hne
  have hcust : c ∈ s.customers := by
    by_cases hp : jsPrim b.is_primary = true
    · simpa [hp, clearPrimaries] using hc
    · rw [Bool.not_eq_true] at hp
      simpa [hp] using hc
  have hcnt : addrCount (insertAddress cid b.address_line1 b.address_line2 b.city b.state
      b.pin_code b.country b.is_primary
      (if jsPrim b.is_primary then clearPrimaries cid s else s)) c.id = addrCount s c.id := by
    rw [addrCount_insertAddress_ne hne]
    by_cases hp : jsPrim b.is_primary = true
    · rw [if_pos hp]
      exact addrCount_map_addresses (clearPrim_customer_id cid) s c.id
    · rw [Bool.not_eq_true] at hp
      rw [hp]
      simp
  rw [hcnt]
  exact hfc c hcust

theorem flagsCorrect_updateAddressState {s : Store} (hfc : flagsCorrect s)
    (cid aid : Nat) (b : AddressBody) : flagsCorrect (updateAddressState cid aid b s) := by
  unfold updateAddressState
  apply flagsCorrect_updateFlags
  intro c hc hne
  set s1 := if jsPrim b.is_primary = true then clearOtherPrimaries cid aid s else s with hs1
  have hs1cust : s1.customers = s.customers := by
    rw [hs1]
    split <;> rfl
  have hs1cnt : ∀ i, addrCount s1 i = addrCount s i := by
    intro i
    rw [hs1]
    split
    · exact addrCount_map_addresses (clearOther_customer_id cid aid) s i
    · rfl
  have hcust : c ∈ s.customers := by
    rw [← hs1cust]
    exact hc
  have hcnt : addrCount { s1 with addresses := s1.addresses.map (applyIfId aid b) } c.id =
      addrCount s c.id := by
    rw [addrCount_map_addresses (applyIfId_customer_id aid b)]
    exact hs1cnt c.id
  rw [hcnt]
  exact hfc c hcust

theorem flagsCorrect_deleteAddressState {s : Store} (hfc : flagsCorrect s)
    (hwf : WfStore s) {a0 : Address} (aid : Nat)
    (hfind : s.addresses.find? (fun a => a.id == aid) = some a0) :
    flagsCorrect (deleteAddressState a0.customer_id aid s) := by
  unfold deleteAddressState
  apply flagsCorrect_updateFlags
  intro c hc hne
  have hmem : a0 ∈ s.addresses := List.mem_of_find?_eq_some hfind
  have hid : a0.id = aid := by simpa using List.find?_some hfind
  have hcnt : addrCount { s with addresses := s.addresses.filter (fun a => !(a.id == aid)) } c.id
      = addrCount s c.id := by
    unfold addrCount
    rw [List.countP_filter]
    apply List.countP_congr
    intro a ha
    constructor
    · intro h'
      simp only [Bool.and_eq_true] at h'
      exact h'.1
    · intro h'
      simp only [Bool.and_eq_true]
      refine ⟨h', ?_⟩
      simp only [Bool.not_eq_eq_eq_not, Bool.not_true, beq_eq_false_iff_ne]
      intro haid
      have : a = a0 := mem_id_unique hwf.2.2.2 ha hmem (by rw [haid, hid])
      rw [this] at h'
      simp only [beq_iff_eq] at h'
      exact hne (h' ▸ rfl)
  rw [hcnt]
  exact hfc c hc

theorem flagsCorrect_createCustomerState {s : Store} (hfc : flagsCorrect s)
    (b : CustomerBody) : flagsCorrect (createCustomerState b s) := by
  unfold createCustomerState
  apply flagsCorrect_updateFlags
  intro c hc hne
  rw [payloadStep_customers] at hc
  rcases List.mem_append.1 hc with hc | hc
  · have hcnt : addrCount (payloadStep s.nextCustomerId b.addresses { s with customers := s.customers ++ [newCustomer s.nextCustomerId b], nextCustomerId := s.nextCustomerId + 1 }) c.id = addrCount s c.id := by
      rw [addrCount_payloadStep_ne hne]
      rfl
    rw [hcnt]
    exact hfc c hc
  · rw [List.mem_singleton.1 hc] at hne
    exact absurd rfl hne

theorem flagsCorrect_updateCustomerState {s : Store} (hfc : flagsCorrect s)
    (cid : Nat) (b : CustomerBody) : flagsCorrect (updateCustomerState cid b s) := by
  unfold updateCustomerState
  apply flagsCorrect_updateFlags
  intro c hc hne
  rw [payloadStep_customers] at hc
  rcases List.mem_map.1 hc with ⟨c0, hc0, rfl⟩
  have hne0 : c0.id ≠ cid := by
    rw [setCore_id] at hne
    exact hne
  rw [setCore_of_ne cid b c0 hne0] at hne ⊢
  have hcnt : addrCount (payloadStep cid b.addresses { s with customers := s.customers.map (setCore cid b), addresses := s.addresses.filter (fun a => !(a.customer_id == cid)) }) c0.id = addrCount s c0.id := by
    rw [addrCount_payloadStep_ne hne0]
    exact addrCount_filter_ne hne0 _
  rw [hcnt]
  exact hfc c0 hc0

theorem flagsCorrect_deleteCustomerState {s : Store} (hfc : flagsCorrect s)
    (cid : Nat) : flagsCorrect (deleteCustomerState cid s) := by
  intro c hc
  unfold deleteCustomerState at hc ⊢
  have hmem := List.mem_of_mem_filter hc
  have hne : c.id ≠ cid := by
    have := (List.mem_filter.1 hc).2
    simpa using this
  have hcnt : addrCount { s with customers := s.customers.filter (fun c => !(c.id == cid)), addresses := s.addresses.filter (fun a => !(a.customer_id == cid)) } c.id = addrCount s c.id := by
    unfold addrCount
    rw [List.countP_filter]
    apply List.countP_congr
    intro a _
    constructor
    · intro h'
      simp only [Bool.and_eq_true] at h'
      exact h'.1
    · intro h'
      simp only [Bool.and_eq_true]
      refine ⟨h', ?_⟩
      simp only [beq_iff_eq] at h'
      simp [h', hne]
  rw [hcnt]
  exact hfc c hmem

theorem flagsCorrect_applyOp {s : Store} (hwf : WfStore s) (hfc : flagsCorrect s)
    (op : Op) : flagsCorrect (applyOp s op) := by
  cases op with
  | createCustomer b =>
    rcases createCustomer_fst b s with heq | heq <;> rw [applyOp, heq]
    · exact hfc
    · exact flagsCorrect_createCustomerState hfc _
  | updateCustomer cid b =>
    rcases updateCustomer_fst cid b s with heq | ⟨_, heq⟩ <;> rw [applyOp, heq]
    · exact hfc
    · exact flagsCorrect_updateCustomerState hfc cid _
  | deleteCustomer cid =>
    rcases deleteCustomer_fst cid s with heq | heq <;> rw [applyOp, heq]
    · exact hfc
    · exact flagsCorrect_deleteCustomerState hfc cid
  | createAddress b =>
    rcases createAddress_fst b s with heq | ⟨cid, _, _, heq⟩ <;> rw [applyOp, heq]
    · exact hfc
    · exact flagsCorrect_createAddressState hfc cid _
  | updateAddress aid b =>
    rcases updateAddress_fst aid b s with heq | ⟨a0, hfind, heq⟩ <;> rw [applyOp, heq]
    · exact hfc
    · exact flagsCorrect_updateAddressState hfc a0.customer_id aid _
  | deleteAddress aid =>
    rcases deleteAddress_fst aid s with heq | ⟨a0, hfind, heq⟩ <;> rw [applyOp, heq]
    · exact hfc
    · exact flagsCorrect_deleteAddressState hfc hwf aid hfind

/-! Primary counts under the store transformations. -/

@[simp]
theorem primaryCount_updateFlags (cid c2 : Nat) (s : Store) :
    primaryCount (updateCustomerAddressFlags cid s) c2 = primaryCount s c2 := rfl

theorem primaryCount_clearPrimaries_self (cid : Nat) (s : Store) :
    primaryCount (clearPrimaries cid s) cid = 0 := by
  unfold primaryCount clearPrimaries
  apply countP_map_false
  intro a _
  by_cases h : (a.customer_id == cid) = true
  · simp [clearPrim, h]
  · rw [Bool.not_eq_true] at h
    simp [clearPrim, h]

theorem primaryCount_clearPrimaries_ne {cid c2 : Nat} (hne : c2 ≠ cid) (s : Store) :
    primaryCount (clearPrimaries cid s) c2 = primaryCount s c2 := by
  unfold primaryCount clearPrimaries
  apply countP_map_congr
  intro a _
  by_cases h : (a.customer_id == cid) = true
  · have heq : a.customer_id = cid := by simpa using h
    have hc2 : (a.customer_id == c2) = false := by
      rw [heq]
      exact beq_eq_false_iff_ne.2 (Ne.symm hne)
    simp [clearPrim, h, hc2]
  · rw [Bool.not_eq_true] at h
    simp [clearPrim, h]

theorem primaryCount_payloadStep_self (cid : Nat) (ob : Option (List AddressPayload))
    (s : Store) :
    primaryCount (payloadStep cid ob s) cid =
      primaryCount s cid + payloadPrimaryCount (ob.getD []) := by
  cases ob with
  | none => simp [payloadStep, payloadPrimaryCount]
  | some ps =>
    cases ps with
    | nil => simp [payloadStep, payloadPrimaryCount]
    | cons p rest =>
      simp only [payloadStep, List.isEmpty_cons, Bool.false_eq_true, if_false]
      rw [insertPayloadAddresses_eq]
      unfold primaryCount
      simp only [Option.getD_some]
      rw [List.countP_append, countP_materialize_prim]

theorem primaryCount_payloadStep_ne {cid c2 : Nat} (hne : c2 ≠ cid)
    (ob : Option (List AddressPayload)) (s : Store) :
    primaryCount (payloadStep cid ob s) c2 = primaryCount s c2 := by
  cases ob with
  | none => rfl
  | some ps =>
    cases ps with
    | nil => rfl
    | cons p rest =>
      simp only [payloadStep, List.isEmpty_cons, Bool.false_eq_true, if_false]
      rw [insertPayloadAddresses_eq]
      unfold primaryCount
      rw [List.countP_append]
      have hz : (materialize cid s.nextAddressId (p :: rest)).countP
          (fun a => a.customer_id == c2 && a.is_primary) = 0 := by
        apply countP_materialize_zero cid s.nextAddressId (p :: rest)
        intro a ha
        rw [ha]
        simp [Ne.symm hne]
      rw [hz, Nat.add_zero]

theorem goodPayload_le {ob : Option (List AddressPayload)}
    (hg : (match ob with
      | none => true
      | some ps => decide (payloadPrimaryCount ps ≤ 1)) = true) :
    payloadPrimaryCount (ob.getD []) ≤ 1 := by
  cases ob with
  | none => simp [payloadPrimaryCount]
  | some ps => exact of_decide_eq_true hg

/-! Preservation of primary exclusivity, under the payload restriction
for the two customer-route writes. -/

/-- The composite effect of the clear-others statement followed by the
row update on one addresses row. -/
theorem comp_row_eq (cid aid : Nat) (b : AddressBody) (a : Address) :
    applyIfId aid b (clearOther cid aid a) =
      if a.id == aid then applyAddressBody b a
      else if a.customer_id == cid then { a with is_primary := false } else a := by
  by_cases haid : (a.id == aid) = true
  · unfold clearOther applyIfId
    simp [haid]
  · rw [Bool.not_eq_true] at haid
    unfold clearOther applyIfId
    by_cases hcc : (a.customer_id == cid) = true
    · simp [haid, hcc]
    · rw [Bool.not_eq_true] at hcc
      simp [haid, hcc]

theorem prim_createAddressState {s : Store} (hp : primInv s) (cid : Nat)
    (b : AddressBody) : primInv (createAddressState cid b s) := by
  unfold createAddressState
  intro c2
  rw [primaryCount_updateFlags]
  by_cases hprim : jsPrim b.is_primary = true
  · rw [if_pos hprim]
    unfold primaryCount insertAddress
    rw [List.countP_append]
    by_cases hc : c2 = cid
    · subst hc
      have h0 := primaryCount_clearPrimaries_self c2 s
      unfold primaryCount at h0
      rw [h0]
      simp [List.countP_cons, hprim]
    · have h1 := primaryCount_clearPrimaries_ne hc s
      unfold primaryCount at h1
      rw [h1]
      have hrow : ((cid == c2) && jsPrim b.is_primary) = false := by
        have : (cid == c2) = false := beq_eq_false_iff_ne.2 (Ne.symm hc)
        simp [this]
      simp only [List.countP_cons, List.countP_nil, hrow, Bool.false_eq_true, if_false]
      have := hp c2
      unfold primaryCount at this
      simpa using this
  · rw [Bool.not_eq_true] at hprim
    rw [hprim]
    simp only [Bool.false_eq_true, if_false]
    unfold primaryCount insertAddress
    rw [List.countP_append]
    have hrow : ((cid == c2) && jsPrim b.is_primary) = false := by
      rw [hprim]
      simp
    simp only [List.countP_cons, List.countP_nil, hrow, Bool.false_eq_true, if_false]
    have := hp c2
    unfold primaryCount at this
    simpa using this

theorem prim_updateAddressState {s : Store} (hwf : WfStore s) (hp : primInv s)
    {a0 : Address} {aid : Nat}
    (hfind : s.addresses.find? (fun a => a.id == aid) = some a0) (b : AddressBody) :
    primInv (updateAddressState a0.customer_id aid b s) := by
  have hmem : a0 ∈ s.addresses := List.mem_of_find?_eq_some hfind
  have hid : a0.id = aid := by simpa using List.find?_some hfind
  unfold updateAddressState
  intro c2
  rw [primaryCount_updateFlags]
  by_cases hprim : jsPrim b.is_primary = true
  · rw [if_pos hprim]
    unfold primaryCount clearOtherPrimaries
    simp only [List.map_map]
    by_cases hc : c2 = a0.customer_id
    · refine Nat.le_trans (countP_map_le ?_) (countP_id_le_one hwf.2.2.2 aid)
      intro a _ hpa
      simp only [Function.comp_apply, comp_row_eq] at hpa
      by_cases haid : (a.id == aid) = true
      · exact haid
      · exfalso
        rw [Bool.not_eq_true] at haid
        simp only [haid, Bool.false_eq_true, if_false] at hpa
        by_cases hcc : (a.customer_id == a0.customer_id) = true
        · simp only [hcc, if_true] at hpa
          simp at hpa
        · rw [Bool.not_eq_true] at hcc
          simp only [hcc, Bool.false_eq_true, if_false] at hpa
          simp only [Bool.and_eq_true, beq_iff_eq] at hpa
          rw [hc] at hpa
          rw [hpa.1] at hcc
          simp at hcc
    · refine Nat.le_trans (countP_map_le ?_) (hp c2)
      intro a ha hpa
      simp only [Function.comp_apply, comp_row_eq] at hpa
      by_cases haid : (a.id == aid) = true
      · exfalso
        have haa : a = a0 := mem_id_unique hwf.2.2.2 ha hmem (by rw [hid]; simpa using haid)
        simp only [haid, if_true] at hpa
        simp only [Bool.and_eq_true, beq_iff_eq] at hpa
        have : a.customer_id = c2 := by
          simpa [applyAddressBody] using hpa.1
        rw [haa] at this
        exact hc this.symm
      · rw [Bool.not_eq_true] at haid
        simp only [haid, Bool.false_eq_true, if_false] at hpa
        by_cases hcc : (a.customer_id == a0.customer_id) = true
        · simp only [hcc, if_true] at hpa
          simp at hpa
        · rw [Bool.not_eq_true] at hcc
          simp only [hcc, Bool.false_eq_true, if_false] at hpa
          exact hpa
  · rw [Bool.not_eq_true] at hprim
    rw [hprim]
    simp only [Bool.false_eq_true, if_false]
    unfold primaryCount
    refine Nat.le_trans (countP_map_le ?_) (hp c2)
    intro a _ hpa
    by_cases haid : (a.id == aid) = true
    · exfalso
      have : applyIfId aid b a = applyAddressBody b a := by
        unfold applyIfId
        rw [if_pos haid]
      rw [this] at hpa
      simp only [Bool.and_eq_true] at hpa
      have := hpa.2
      simp [applyAddressBody, hprim] at this
    · rw [Bool.not_eq_true] at haid
      have : applyIfId aid b a = a := by
        unfold applyIfId
        simp [haid]
      rw [this] at hpa
      exact hpa

theorem prim_deleteAddressState {s : Store} (hp : primInv s) (cid aid : Nat) :
    primInv (deleteAddressState cid aid s) := by
  unfold deleteAddressState
  intro c2
  rw [primaryCount_updateFlags]
  calc primaryCount { s with addresses := s.addresses.filter (fun a => !(a.id == aid)) } c2
      ≤ primaryCount s c2 := (List.filter_sublist s.addresses).countP_le _
    _ ≤ 1 := hp c2

theorem prim_createCustomerState {s : Store} (hwf : WfStore s) (hp : primInv s)
    (b : CustomerBody) (hg : payloadPrimaryCount (b.addresses.getD []) ≤ 1) :
    primInv (createCustomerState b s) := by
  unfold createCustomerState
  intro c2
  rw [primaryCount_updateFlags]
  by_cases hc : c2 = s.nextCustomerId
  · subst hc
    rw [primaryCount_payloadStep_self]
    have h0 : primaryCount { s with customers := s.customers ++ [newCustomer s.nextCustomerId b], nextCustomerId := s.nextCustomerId + 1 } s.nextCustomerId = 0 := by
      unfold primaryCount
      apply countP_eq_zero_of
      intro a ha
      have := hwf.2.1 a ha
      have hne : (a.customer_id == s.nextCustomerId) = false := by
        simp only [beq_eq_false_iff_ne]
        omega
      simp [hne]
    rw [h0]
    omega
  · rw [primaryCount_payloadStep_ne hc]
    have : primaryCount { s with customers := s.customers ++ [newCustomer s.nextCustomerId b], nextCustomerId := s.nextCustomerId + 1 } c2 = primaryCount s c2 := rfl
    rw [this]
    exact hp c2

theorem prim_updateCustomerState {s : Store} (hp : primInv s) (cid : Nat)
    (b : CustomerBody) (hg : payloadPrimaryCount (b.addresses.getD []) ≤ 1) :
    primInv (updateCustomerState cid b s) := by
  unfold updateCustomerState
  intro c2
  rw [primaryCount_updateFlags]
  by_cases hc : c2 = cid
  · subst hc
    rw [primaryCount_payloadStep_self]
    have h0 : primaryCount { s with customers := s.customers.map (setCore c2 b), addresses := s.addresses.filter (fun a => !(a.customer_id == c2)) } c2 = 0 := by
      unfold primaryCount
      apply countP_eq_zero_of
      intro a ha
      have := (List.mem_filter.1 ha).2
      simp only [Bool.not_eq_eq_eq_not, Bool.not_true, beq_eq_false_iff_ne] at this
      simp [this]
    rw [h0]
    omega
  · rw [primaryCount_payloadStep_ne hc]
    calc primaryCount { s with customers := s.customers.map (setCore cid b), addresses := s.addresses.filter (fun a => !(a.customer_id == cid)) } c2
        ≤ primaryCount s c2 := (List.filter_sublist s.addresses).countP_le _
      _ ≤ 1 := hp c2

theorem prim_deleteCustomerState {s : Store} (hp : primInv s) (cid : Nat) :
    primInv (deleteCustomerState cid s) := by
  unfold deleteCustomerState
  intro c2
  calc primaryCount { s with customers := s.customers.filter (fun c => !(c.id == cid)), addresses := s.addresses.filter (fun a => !(a.customer_id == cid)) } c2
      ≤ primaryCount s c2 := (List.filter_sublist s.addresses).countP_le _
    _ ≤ 1 := hp c2

theorem primInv_applyOp {s : Store} (hwf : WfStore s) (hp : primInv s) {op : Op}
    (hg : goodOp op = true) : primInv (applyOp s op) := by
  cases op with
  | createCustomer b =>
    rcases createCustomer_fst b s with heq | heq <;> rw [applyOp, heq]
    · exact hp
    · apply prim_createCustomerState hwf hp
      rw [sanitizeCustomerBody_addresses]
      exact goodPayload_le hg
  | updateCustomer cid b =>
    rcases updateCustomer_fst cid b s with heq | ⟨_, heq⟩ <;> rw [applyOp, heq]
    · exact hp
    · apply prim_updateCustomerState hp cid
      rw [sanitizeCustomerBody_addresses]
      exact goodPayload_le hg
  | deleteCustomer cid =>
    rcases deleteCustomer_fst cid s with heq | heq <;> rw [applyOp, heq]
    · exact hp
    · exact prim_deleteCustomerState hp cid
  | createAddress b =>
    rcases createAddress_fst b s with heq | ⟨cid, _, _, heq⟩ <;> rw [applyOp, heq]
    · exact hp
    · exact prim_createAddressState hp cid _
  | updateAddress aid b =>
    rcases updateAddress_fst aid b s with heq | ⟨a0, hfind, heq⟩ <;> rw [applyOp, heq]
    · exact hp
    · exact prim_updateAddressState hwf hp hfind _
  | deleteAddress aid =>
    rcases deleteAddress_fst aid s with heq | ⟨a0, hfind, heq⟩ <;> rw [applyOp, heq]
    · exact hp
    · exact prim_deleteAddressState hp _ aid

/-! Reachable-state invariants. -/

theorem primInv_empty : primInv emptyStore := by
  intro cid
  simp [primaryCount, emptyStore]

theorem foldl_wf_flags (ops : List Op) :
    ∀ s : Store, WfStore s → flagsCorrect s →
      WfStore (ops.foldl applyOp s) ∧ flagsCorrect (ops.foldl applyOp s) := by
  induction ops with
  | nil => exact fun s hw hf => ⟨hw, hf⟩
  | cons op t ih =>
    intro s hw hf
    rw [List.foldl_cons]
    exact ih _ (wfStore_applyOp hw op) (flagsCorrect_applyOp hw hf op)

theorem run_wf (ops : List Op) : WfStore (run ops) :=
  (foldl_wf_flags ops emptyStore wfStore_empty flagsCorrect_empty).1

theorem run_flagsCorrect (ops : List Op) : flagsCorrect (run ops) :=
  (foldl_wf_flags ops emptyStore wfStore_empty flagsCorrect_empty).2

theorem foldl_prim (ops : List Op) :
    ∀ s : Store, WfStore s → flagsCorrect s → primInv s → ops.all goodOp = true →
      primInv (ops.foldl applyOp s) := by
  induction ops with
  | nil => exact fun s _ _ hp _ => hp
  | cons op t ih =>
    intro s hw hf hp hall
    rw [List.all_cons, Bool.and_eq_true] at hall
    rw [List.foldl_cons]
    exact ih _ (wfStore_applyOp hw op) (flagsCorrect_applyOp hw hf op)
      (primInv_applyOp hw hp hall.1) hall.2

/-! Remaining general helpers for the claim theorems. -/

theorem map_congr_mem {α β : Type} {l : List α} {f g : α → β}
    (h : ∀ a ∈ l, f a = g a) : l.map f = l.map g := by
  induction l with
  | nil => rfl
  | cons x t ih =>
    simp only [List.map_cons, h x (List.mem_cons_self x t)]
    rw [ih (fun a ha => h a (List.mem_cons_of_mem x ha))]

theorem map_eq_self_of {α : Type} {l : List α} {f : α → α}
    (h : ∀ a ∈ l, f a = a) : l.map f = l := by
  induction l with
  | nil => rfl
  | cons x t ih =>
    simp only [List.map_cons, h x (List.mem_cons_self x t)]
    rw [ih (fun a ha => h a (List.mem_cons_of_mem x ha))]

theorem store_eq {s1 s2 : Store} (hc : s1.customers = s2.customers)
    (ha : s1.addresses = s2.addresses) (h3 : s1.nextCustomerId = s2.nextCustomerId)
    (h4 : s1.nextAddressId = s2.nextAddressId) : s1 = s2 := by
  cases s1
  cases s2
  cases hc
  cases ha
  cases h3
  cases h4
  rfl

theorem payloadStep_addresses (cid : Nat) (ob : Option (List AddressPayload)) (s : Store) :
    (payloadStep cid ob s).addresses =
      s.addresses ++ materialize cid s.nextAddressId (ob.getD []) := by
  cases ob with
  | none => simp [payloadStep, materialize]
  | some ps =>
    cases ps with
    | nil => simp [payloadStep, materialize]
    | cons p rest =>
      simp only [payloadStep, List.isEmpty_cons, Bool.false_eq_true, if_false,
        Option.getD_some]
      rw [insertPayloadAddresses_eq]

theorem zip_map_mem {α : Type} {l : List α} {f : α → α} {p : α × α}
    (hp : p ∈ l.zip (l.map f)) : p.2 = f p.1 ∧ p.1 ∈ l := by
  induction l with
  | nil => cases hp
  | cons x t ih =>
    rw [List.map_cons, List.zip_cons_cons] at hp
    rcases List.mem_cons.1 hp with rfl | hp2
    · exact ⟨rfl, List.mem_cons_self x t⟩
    · rcases ih hp2 with ⟨h1, h2⟩
      exact ⟨h1, List.mem_cons_of_mem x h2⟩

/-- The owner lookup of the address create handler fails: either no
customer_id was supplied (the statement binds NULL, matching no row) or
no customers row carries the supplied id. -/
def ownerMissing (oc : Option Nat) (s : Store) : Bool :=
  match oc with
  | none => true
  | some cid => !(s.customers.any (fun c => c.id == cid))

/-! Concrete request bodies and stores used to instantiate the
theorems on explicit inputs. -/

/-- A valid customer create body carrying one primary address. -/
def annBody : CustomerBody where
  first_name := "Ann"
  last_name := "Lee"
  phone_number := "5551112222"
  email := some ("ann@lee.com")
  addresses := some [⟨"12 Oak Street", none, "Springfield", "IL", "620001", none, some true⟩]

/-- A valid customer create body whose payload list flags two entries as
primary. -/
def twoPrimaryBody : CustomerBody where
  first_name := "Bob"
  last_name := "Two"
  phone_number := "5551112223"
  email := none
  addresses := some [⟨"1 Main Street", none, "Pune", "MH", "411001", none, some true⟩,
    ⟨"2 Main Street", none, "Pune", "MH", "411002", none, some true⟩]

/-- A valid address create body, primary, for customer 1. -/
def pineBody : AddressBody where
  customer_id := some 1
  address_line1 := "77 Pine Street"
  address_line2 := none
  city := "Springfield"
  state := "IL"
  pin_code := "620002"
  country := none
  is_primary := some true

/-- A valid address body with is_primary unset, for customer 1. -/
def elmBody : AddressBody where
  customer_id := some 1
  address_line1 := "9 Elm Street"
  address_line2 := none
  city := "Springfield"
  state := "IL"
  pin_code := "620003"
  country := none
  is_primary := none

/-- The store holding exactly the customer created by annBody. -/
def annStore : Store := run [Op.createCustomer annBody]

/-- The customers row annBody produces. -/
def annRow : Customer where
  id := 1
  first_name := "Ann"
  last_name := "Lee"
  phone_number := "5551112222"
  email := some ("ann@lee.com")
  has_multiple_addresses := false
  only_one_address := true

/-- A valid customer body reusing the phone number of annBody. -/
def dupPhoneBody : CustomerBody where
  first_name := "Cal"
  last_name := "Ray"
  phone_number := "5551112222"
  email := none
  addresses := none

/-- A valid customer body with a fresh phone but the email of annBody. -/
def dupEmailBody : CustomerBody where
  first_name := "Dee"
  last_name := "Kim"
  phone_number := "5551112229"
  email := some ("ann@lee.com")
  addresses := none

/-! The claims. -/

/-- Claim C2: in every reachable store (hence in particular immediately
after any address-set-changing operation settles), every customers row
reads has_multiple_addresses exactly when its live address count exceeds
one and only_one_address exactly when the count is exactly one, and the
two flags are never both true. -/
theorem C2_flag_correctness (ops : List Op) :
    ∀ c ∈ (run ops).customers,
      c.has_multiple_addresses = decide (addrCount (run ops) c.id > 1) ∧
      c.only_one_address = decide (addrCount (run ops) c.id = 1) ∧
      ¬(c.has_multiple_addresses = true ∧ c.only_one_address = true) := by
  intro c hc
  obtain ⟨h1, h2⟩ := run_flagsCorrect ops c hc
  refine ⟨h1, h2, ?_⟩
  rintro ⟨ha, hb⟩
  rw [ha] at h1
  rw [hb] at h2
  have hgt := of_decide_eq_true h1.symm
  have heq := of_decide_eq_true h2.symm
  omega

theorem C2_flag_correctness_witness :
    (annRow ∈ (run [Op.createCustomer annBody]).customers) ∧
    (annRow.has_multiple_addresses =
      decide (addrCount (run [Op.createCustomer annBody]) annRow.id > 1) ∧
    annRow.only_one_address =
      decide (addrCount (run [Op.createCustomer annBody]) annRow.id = 1) ∧
    ¬(annRow.has_multiple_addresses = true ∧ annRow.only_one_address = true)) :=
  ⟨by decide, C2_flag_correctness [Op.createCustomer annBody] annRow (by decide)⟩

/-- Claim C8: the flag recompute of the Consistency Maintainer is
idempotent; running it twice for a customer with no intervening address
change leaves the very same store as running it once. -/
theorem C8_idempotent_recompute (cid : Nat) (s : Store) :
    updateCustomerAddressFlags cid (updateCustomerAddressFlags cid s) =
      updateCustomerAddressFlags cid s := by
  apply store_eq
  · show ((updateCustomerAddressFlags cid s).customers.map
        (setFlags cid (decide (addrCount (updateCustomerAddressFlags cid s) cid > 1))
          (decide (addrCount (updateCustomerAddressFlags cid s) cid = 1)))) =
      (updateCustomerAddressFlags cid s).customers
    rw [addrCount_updateFlags]
    show ((s.customers.map (setFlags cid (decide (addrCount s cid > 1))
        (decide (addrCount s cid = 1)))).map
          (setFlags cid (decide (addrCount s cid > 1)) (decide (addrCount s cid = 1)))) = _
    rw [List.map_map]
    apply map_congr_mem
    intro c _
    show setFlags cid _ _ (setFlags cid _ _ c) = setFlags cid _ _ c
    unfold setFlags
    by_cases h : (c.id == cid) = true
    · simp [h]
    · rw [Bool.not_eq_true] at h
      simp [h]
  · rfl
  · rfl
  · rfl

/-- Claim C10: the address create handler validates every body field
except customer_id, so a body passing validation whose customer_id is
absent or matches no customer is answered with 404 Customer not found,
the store unchanged; and the validator result is independent of the
customer_id field. -/
theorem C10_customer_id_not_validated (b : AddressBody) (s : Store) (x : Option Nat)
    (hv : validateAddress b = true)
    (hmiss : ownerMissing b.customer_id s = true) :
    createAddress b s = (s, ⟨404, false, "Customer not found"⟩) ∧
    validateAddress { b with customer_id := x } = validateAddress b := by
  constructor
  · simp only [createAddress, hv, if_true]
    cases hb : b.customer_id with
    | none => simp [sanitizeAddressBody_customer_id, hb]
    | some cid =>
      rw [hb] at hmiss
      unfold ownerMissing at hmiss
      rw [Bool.not_eq_true'] at hmiss
      simp [sanitizeAddressBody_customer_id, hb, hmiss]
  · rfl

theorem C10_customer_id_not_validated_witness :
    createAddress { elmBody with customer_id := none } emptyStore =
      (emptyStore, ⟨404, false, "Customer not found"⟩) ∧
    validateAddress { { elmBody with customer_id := none } with customer_id := some 7 } =
      validateAddress { elmBody with customer_id := none } :=
  C10_customer_id_not_validated { elmBody with customer_id := none } emptyStore (some 7)
    (by decide) (by decide)

/-- Claim C4: deleting an existing customer succeeds, leaves no
addresses row referencing the deleted id, and a subsequent get by that
id answers 404. -/
theorem C4_cascade_delete (cid : Nat) (s : Store)
    (hex : s.customers.any (fun c => c.id == cid) = true) :
    (deleteCustomer cid s).2.success = true ∧
    (deleteCustomer cid s).2.status = 200 ∧
    (deleteCustomer cid s).1.addresses.filter (fun a => a.customer_id == cid) = [] ∧
    getCustomer cid (deleteCustomer cid s).1 = ⟨404, false, "Customer not found"⟩ := by
  simp only [deleteCustomer, hex, if_true]
  refine ⟨trivial, trivial, ?_, ?_⟩
  · show (deleteCustomerState cid s).addresses.filter (fun a => a.customer_id == cid) = []
    unfold deleteCustomerState
    rw [List.filter_filter]
    apply List.filter_eq_nil_iff.2
    intro a _
    simp
  · show getCustomer cid (deleteCustomerState cid s) = _
    unfold getCustomer
    have hnone : (deleteCustomerState cid s).customers.find? (fun c => c.id == cid) = none := by
      apply List.find?_eq_none.2
      intro c hc
      unfold deleteCustomerState at hc
      have := (List.mem_filter.1 hc).2
      simp only [Bool.not_eq_eq_eq_not, Bool.not_true, beq_eq_false_iff_ne] at this
      simp [this]
    rw [hnone]

theorem C4_cascade_delete_witness :
    ((annStore.customers.any (fun c => c.id == 1)) = true) ∧
    ((deleteCustomer 1 annStore).2.success = true ∧
    (deleteCustomer 1 annStore).2.status = 200 ∧
    (deleteCustomer 1 annStore).1.addresses.filter (fun a => a.customer_id == 1) = [] ∧
    getCustomer 1 (deleteCustomer 1 annStore).1 = ⟨404, false, "Customer not found"⟩) :=
  ⟨by decide, C4_cascade_delete 1 annStore (by decide)⟩

/-- Claim C6: creating a customer whose phone number is already taken is
rejected with 400 and no store change, before the email is even
considered; with a fresh phone, a supplied already-taken email is
rejected with 400 and no store change. -/
theorem C6_duplicate_rejection (b : CustomerBody) (s : Store)
    (hv : validateCustomer b = true) :
    (phoneTaken b.phone_number s = true →
      createCustomer b s = (s, ⟨400, false, "Phone number already exists"⟩)) ∧
    (phoneTaken b.phone_number s = false → jsSomeStr b.email = true →
      emailTaken (b.email.getD ("")) s = true →
      createCustomer b s = (s, ⟨400, false, "Email already exists"⟩)) := by
  constructor
  · intro hdup
    simp only [createCustomer, hv, if_true, sanitizeCustomerBody_phone, hdup]
  · intro hph hmail hdup
    simp only [createCustomer, hv, if_true, sanitizeCustomerBody_phone,
      sanitizeCustomerBody_email, hph, hmail, hdup, Bool.false_eq_true, if_false,
      Bool.and_self, if_true]

theorem C6_duplicate_rejection_witness :
    createCustomer dupPhoneBody annStore =
      (annStore, ⟨400, false, "Phone number already exists"⟩) ∧
    createCustomer dupEmailBody annStore =
      (annStore, ⟨400, false, "Email already exists"⟩) :=
  ⟨(C6_duplicate_rejection dupPhoneBody annStore (by decide)).1 (by decide),
   (C6_duplicate_rejection dupEmailBody annStore (by decide)).2
     (by decide) (by decide) (by decide)⟩

/-- Claim C1, amended: primary exclusivity holds in every store reachable
from the empty store by request sequences in which every customer create
or update supplies at most one primary-flagged address payload entry.
The unrestricted claim fails on the code: the customer handlers insert
payload entries verbatim, with no primary-exclusivity clearing. -/
theorem C1_primary_exclusivity (ops : List Op) (h : ops.all goodOp = true) :
    primInv (run ops) :=
  foldl_prim ops emptyStore wfStore_empty flagsCorrect_empty primInv_empty h

theorem C1_primary_exclusivity_witness :
    ([Op.createCustomer annBody, Op.createAddress pineBody].all goodOp = true) ∧
    primInv (run [Op.createCustomer annBody, Op.createAddress pineBody]) :=
  ⟨by decide, C1_primary_exclusivity [Op.createCustomer annBody, Op.createAddress pineBody]
    (by decide)⟩

/-- Claim C1, counterexample to the claim as stated: one customer create
whose payload list flags two entries as primary reaches a store in which
customer 1 owns two primary addresses. -/
theorem C1_primary_exclusivity_counterexample :
    ¬ primInv (run [Op.createCustomer twoPrimaryBody]) :=
  fun h => absurd (h 1) (by decide)

/-- Claim C3: a customer update that reports success replaces the whole
address set: afterwards the addresses of that customer are exactly the
materialized supplied list, and the empty or absent list leaves the
customer with no addresses. -/
theorem C3_replace_semantics (cid : Nat) (b : CustomerBody) (s : Store)
    (h : (updateCustomer cid b s).2.success = true) :
    (updateCustomer cid b s).1.addresses.filter (fun a => a.customer_id == cid) =
      materialize cid s.nextAddressId (b.addresses.getD []) := by
  simp only [updateCustomer] at h ⊢
  by_cases hv : validateCustomer b = true
  · simp only [hv, if_true] at h ⊢
    by_cases hex : s.customers.any (fun c => c.id == cid) = true
    · simp only [hex, if_true] at h ⊢
      by_cases hph : s.customers.any
          (fun c => c.phone_number == (sanitizeCustomerBody b).phone_number &&
            !(c.id == cid)) = true
      · simp only [hph, if_true] at h
        simp at h
      · rw [Bool.not_eq_true] at hph
        simp only [hph, Bool.false_eq_true, if_false] at h ⊢
        by_cases hem : (jsSomeStr (sanitizeCustomerBody b).email && s.customers.any
            (fun c => c.email == some ((sanitizeCustomerBody b).email.getD ("")) &&
              !(c.id == cid))) = true
        · simp only [hem, if_true] at h
          simp at h
        · rw [Bool.not_eq_true] at hem
          simp only [hem, Bool.false_eq_true, if_false]
          show (updateCustomerState cid (sanitizeCustomerBody b) s).addresses.filter
              (fun a => a.customer_id == cid) =
            materialize cid s.nextAddressId (b.addresses.getD [])
          unfold updateCustomerState
          rw [updateCustomerAddressFlags_addresses, payloadStep_addresses,
            sanitizeCustomerBody_addresses, List.filter_append]
          show (s.addresses.filter (fun a => !(a.customer_id == cid))).filter
              (fun a => a.customer_id == cid) ++
            (materialize cid s.nextAddressId (b.addresses.getD [])).filter
              (fun a => a.customer_id == cid) =
            materialize cid s.nextAddressId (b.addresses.getD [])
          have h1 : (s.addresses.filter (fun a => !(a.customer_id == cid))).filter
              (fun a => a.customer_id == cid) = [] := by
            rw [List.filter_filter]
            apply List.filter_eq_nil_iff.2
            intro a _
            simp
          have h2 : (materialize cid s.nextAddressId (b.addresses.getD [])).filter
              (fun a => a.customer_id == cid) =
              materialize cid s.nextAddressId (b.addresses.getD []) := by
            apply List.filter_eq_self.2
            intro a ha
            have := (mem_materialize ha).1
            simp [this]
          rw [h1, h2, List.nil_append]
    · simp [hex] at h
  · simp [hv] at h

theorem C3_replace_semantics_witness :
    ((updateCustomer 1 twoPrimaryBody annStore).2.success = true) ∧
    (updateCustomer 1 twoPrimaryBody annStore).1.addresses.filter
        (fun a => a.customer_id == 1) =
      materialize 1 annStore.nextAddressId (twoPrimaryBody.addresses.getD []) :=
  ⟨by decide, C3_replace_semantics 1 twoPrimaryBody annStore (by decide)⟩

/-- Claim C5: creating a primary-flagged address for an existing
customer answers 201, clears the primary flag of every previously stored
address of that customer while appending the new row with the flag set,
and afterwards every primary address of the customer is the new row. -/
theorem C5_primary_create (b : AddressBody) (s : Store) (cid : Nat)
    (hv : validateAddress b = true) (hcid : b.customer_id = some cid)
    (hex : s.customers.any (fun c => c.id == cid) = true)
    (hp : jsPrim b.is_primary = true) :
    (createAddress b s).2.status = 201 ∧
    (createAddress b s).1.addresses =
      s.addresses.map (clearPrim cid) ++
        [⟨s.nextAddressId, cid, strTrim b.address_line1,
          jsOrStr (b.address_line2.map strTrim) (""), strTrim b.city, strTrim b.state,
          b.pin_code, jsOrStr (b.country.map strTrim) ("India"), true⟩] ∧
    ∀ a ∈ (createAddress b s).1.addresses, a.customer_id = cid → a.is_primary = true →
      a.id = s.nextAddressId := by
  have hmain : createAddress b s =
      (createAddressState cid (sanitizeAddressBody b) s,
        ⟨201, true, "Address created successfully"⟩) := by
    simp only [createAddress, hv, if_true, sanitizeAddressBody_customer_id, hcid, hex]
  have heq : (createAddress b s).1.addresses =
      s.addresses.map (clearPrim cid) ++
        [⟨s.nextAddressId, cid, strTrim b.address_line1,
          jsOrStr (b.address_line2.map strTrim) (""), strTrim b.city, strTrim b.state,
          b.pin_code, jsOrStr (b.country.map strTrim) ("India"), true⟩] := by
    rw [hmain]
    show (createAddressState cid (sanitizeAddressBody b) s).addresses = _
    unfold createAddressState
    simp only [sanitizeAddressBody_is_primary, hp, if_true,
      updateCustomerAddressFlags_addresses]
    unfold insertAddress clearPrimaries
    simp only [sanitizeAddressBody_is_primary, hp]
    rfl
  refine ⟨by rw [hmain], heq, ?_⟩
  rw [heq]
  intro a ha hac hap
  rcases List.mem_append.1 ha with ha | ha
  · rcases List.mem_map.1 ha with ⟨a0, _, rfl⟩
    exfalso
    by_cases h0 : (a0.customer_id == cid) = true
    · unfold clearPrim at hap
      rw [if_pos h0] at hap
      simp at hap
    · rw [Bool.not_eq_true] at h0
      unfold clearPrim at hac
      rw [if_neg (by simp [h0])] at hac
      rw [hac] at h0
      simp at h0
  · rw [List.mem_singleton.1 ha]

theorem C5_primary_create_witness :
    (validateAddress pineBody = true) ∧ (pineBody.customer_id = some 1) ∧
    ((annStore.customers.any (fun c => c.id == 1)) = true) ∧
    (jsPrim pineBody.is_primary = true) ∧
    ((createAddress pineBody annStore).2.status = 201 ∧
      (createAddress pineBody annStore).1.addresses =
        annStore.addresses.map (clearPrim 1) ++
          [⟨annStore.nextAddressId, 1, strTrim pineBody.address_line1,
            jsOrStr (pineBody.address_line2.map strTrim) (""), strTrim pineBody.city,
            strTrim pineBody.state, pineBody.pin_code,
            jsOrStr (pineBody.country.map strTrim) ("India"), true⟩] ∧
      ∀ a ∈ (createAddress pineBody annStore).1.addresses, a.customer_id = 1 →
        a.is_primary = true → a.id = annStore.nextAddressId) :=
  ⟨by decide, by decide, by decide, by decide,
    C5_primary_create pineBody annStore 1 (by decide) (by decide) (by decide) (by decide)⟩

/-- Claim C7: deleting an address keeps every remaining row unchanged,
with no promotion of another address to primary; updating an address
with a falsy is_primary rewrites only that row; creating an address with
a falsy is_primary appends a non-primary row and touches no other row. -/
theorem C7_no_side_effects (s : Store) (aid : Nat) (b : AddressBody) (cid : Nat)
    (hv : validateAddress b = true) (hp : jsPrim b.is_primary = false) :
    (deleteAddress aid s).1.addresses = s.addresses.filter (fun a => !(a.id == aid)) ∧
    (updateAddress aid b s).1.addresses =
      s.addresses.map (applyIfId aid (sanitizeAddressBody b)) ∧
    (b.customer_id = some cid → s.customers.any (fun c => c.id == cid) = true →
      (createAddress b s).1.addresses =
        s.addresses ++ [⟨s.nextAddressId, cid, strTrim b.address_line1,
          jsOrStr (b.address_line2.map strTrim) (""), strTrim b.city, strTrim b.state,
          b.pin_code, jsOrStr (b.country.map strTrim) ("India"), false⟩]) := by
  have hps : jsPrim (sanitizeAddressBody b).is_primary = false := by
    rw [sanitizeAddressBody_is_primary]
    exact hp
  refine ⟨?_, ?_, ?_⟩
  · cases hfind : s.addresses.find? (fun a => a.id == aid) with
    | none =>
      simp only [deleteAddress, hfind]
      show s.addresses = s.addresses.filter (fun a => !(a.id == aid))
      symm
      apply List.filter_eq_self.2
      intro a ha
      have := List.find?_eq_none.1 hfind a ha
      rw [Bool.not_eq_true] at this
      simp [this]
    | some a0 =>
      simp only [deleteAddress, hfind]
      rfl
  · cases hfind : s.addresses.find? (fun a => a.id == aid) with
    | none =>
      simp only [updateAddress, hv, if_true, hfind]
      show s.addresses = s.addresses.map (applyIfId aid (sanitizeAddressBody b))
      symm
      apply map_eq_self_of
      intro a ha
      have := List.find?_eq_none.1 hfind a ha
      rw [Bool.not_eq_true] at this
      unfold applyIfId
      simp [this]
    | some a0 =>
      simp only [updateAddress, hv, if_true, hfind]
      show (updateAddressState a0.customer_id aid (sanitizeAddressBody b) s).addresses = _
      unfold updateAddressState
      simp only [hps, Bool.false_eq_true, if_false, updateCustomerAddressFlags_addresses]
  · intro hcid hex
    simp only [createAddress, hv, if_true, sanitizeAddressBody_customer_id, hcid, hex,
      if_true]
    show (createAddressState cid (sanitizeAddressBody b) s).addresses = _
    unfold createAddressState
    simp only [hps, Bool.false_eq_true, if_false, updateCustomerAddressFlags_addresses]
    unfold insertAddress
    simp only [sanitizeAddressBody_is_primary, hp]
    rfl

theorem C7_no_side_effects_witness :
    (validateAddress elmBody = true) ∧ (jsPrim elmBody.is_primary = false) ∧
    ((deleteAddress 1 annStore).1.addresses =
      annStore.addresses.filter (fun a => !(a.id == 1)) ∧
    (updateAddress 1 elmBody annStore).1.addresses =
      annStore.addresses.map (applyIfId 1 (sanitizeAddressBody elmBody)) ∧
    (elmBody.customer_id = some 1 → annStore.customers.any (fun c => c.id == 1) = true →
      (createAddress elmBody annStore).1.addresses =
        annStore.addresses ++ [⟨annStore.nextAddressId, 1, strTrim elmBody.address_line1,
          jsOrStr (elmBody.address_line2.map strTrim) (""), strTrim elmBody.city,
          strTrim elmBody.state, elmBody.pin_code,
          jsOrStr (elmBody.country.map strTrim) ("India"), false⟩])) :=
  ⟨by decide, by decide, C7_no_side_effects annStore 1 elmBody 1 (by decide) (by decide)⟩

/-- Claim C9: an address update resolves the owner from the stored row
and never changes any customer_id of any address; rows of other
customers are untouched, and on the customers table only the derived
flags of the owner may change, every other field and every other row
being preserved. -/
theorem C9_update_owner_frame (s : Store) (aid : Nat) (b : AddressBody) (a0 : Address)
    (hu : s.addresses.Pairwise (fun x y => x.id ≠ y.id))
    (hf : s.addresses.find? (fun a => a.id == aid) = some a0)
    (hv : validateAddress b = true) :
    (updateAddress aid b s).1.addresses.length = s.addresses.length ∧
    (∀ p ∈ s.addresses.zip (updateAddress aid b s).1.addresses,
      p.2.customer_id = p.1.customer_id) ∧
    (∀ p ∈ s.addresses.zip (updateAddress aid b s).1.addresses,
      p.1.customer_id ≠ a0.customer_id → p.2 = p.1) ∧
    (updateAddress aid b s).1.customers.length = s.customers.length ∧
    (∀ q ∈ s.customers.zip (updateAddress aid b s).1.customers,
      (q.1.id ≠ a0.customer_id → q.2 = q.1) ∧ q.2.id = q.1.id ∧
      q.2.first_name = q.1.first_name ∧ q.2.last_name = q.1.last_name ∧
      q.2.phone_number = q.1.phone_number ∧ q.2.email = q.1.email) := by
  have hmem : a0 ∈ s.addresses := List.mem_of_find?_eq_some hf
  have hid : a0.id = aid := by simpa using List.find?_some hf
  have hmain : (updateAddress aid b s).1 =
      updateAddressState a0.customer_id aid (sanitizeAddressBody b) s := by
    simp only [updateAddress, hv, if_true, hf]
  have haddr : (updateAddressState a0.customer_id aid (sanitizeAddressBody b) s).addresses =
      s.addresses.map (fun a => applyIfId aid (sanitizeAddressBody b)
        (if jsPrim (sanitizeAddressBody b).is_primary = true
          then clearOther a0.customer_id aid a else a)) := by
    unfold updateAddressState
    by_cases hj : jsPrim (sanitizeAddressBody b).is_primary = true
    · simp only [hj, if_true, updateCustomerAddressFlags_addresses]
      show ((clearOtherPrimaries a0.customer_id aid s).addresses.map
          (applyIfId aid (sanitizeAddressBody b))) = _
      unfold clearOtherPrimaries
      rw [List.map_map]
      apply map_congr_mem
      intro a _
      simp [hj, Function.comp]
    · rw [Bool.not_eq_true] at hj
      simp only [hj, Bool.false_eq_true, if_false, updateCustomerAddressFlags_addresses]
  have hcust2 : ∃ hm oo,
      (updateAddressState a0.customer_id aid (sanitizeAddressBody b) s).customers =
        s.customers.map (setFlags a0.customer_id hm oo) := by
    unfold updateAddressState
    by_cases hj : jsPrim (sanitizeAddressBody b).is_primary = true
    · simp only [hj, if_true]
      exact ⟨_, _, rfl⟩
    · rw [Bool.not_eq_true] at hj
      simp only [hj, Bool.false_eq_true, if_false]
      exact ⟨_, _, rfl⟩
  obtain ⟨hm, oo, hcusteq⟩ := hcust2
  rw [hmain, haddr, hcusteq]
  refine ⟨List.length_map _ _, ?_, ?_, List.length_map _ _, ?_⟩
  · intro p hp2
    obtain ⟨heq, _⟩ := zip_map_mem hp2
    rw [heq, applyIfId_customer_id]
    split
    · rw [clearOther_customer_id]
    · rfl
  · intro p hp2 hne
    obtain ⟨heq, hmem2⟩ := zip_map_mem hp2
    rw [heq]
    have haid : (p.1.id == aid) = false := by
      rw [beq_eq_false_iff_ne]
      intro hpe
      have : p.1 = a0 := mem_id_unique hu hmem2 hmem (by rw [hpe, hid])
      exact hne (by rw [this])
    have h2 : (if jsPrim (sanitizeAddressBody b).is_primary = true
        then clearOther a0.customer_id aid p.1 else p.1) = p.1 := by
      split
      · unfold clearOther
        rw [if_neg (by simp [beq_eq_false_iff_ne.2 hne])]
      · rfl
    rw [h2]
    unfold applyIfId
    simp [haid]
  · intro q hq
    obtain ⟨heq, _⟩ := zip_map_mem hq
    rw [heq]
    exact ⟨fun hne => setFlags_of_ne _ _ _ _ hne, by simp, by simp, by simp, by simp, by simp⟩

theorem C9_update_owner_frame_witness :
    ((run [Op.createCustomer annBody, Op.createAddress pineBody]).addresses.Pairwise
      (fun x y => x.id ≠ y.id)) ∧
    ((run [Op.createCustomer annBody, Op.createAddress pineBody]).addresses.find?
      (fun a => a.id == 2) = some
        ⟨2, 1, "77 Pine Street", "", "Springfield", "IL", "620002", "India", true⟩) ∧
    (validateAddress elmBody = true) ∧
    ((updateAddress 2 elmBody (run [Op.createCustomer annBody, Op.createAddress pineBody])).1.addresses.length =
      (run [Op.createCustomer annBody, Op.createAddress pineBody]).addresses.length) :=
  ⟨by decide, by decide, by decide,
    (C9_update_owner_frame (run [Op.createCustomer annBody, Op.createAddress pineBody]) 2
      elmBody ⟨2, 1, "77 Pine Street", "", "Springfield", "IL", "620002", "India", true⟩
      (by decide) (by decide) (by decide)).1⟩

end CustomerCrud
